import Mathlib

/-!
Verification of the scanned-document ingestion pipeline of canvas-parent-cli.

Shallow embedding of the Python sources under src/scanner and src/database:
- matcher.py        (AssignmentMatcher)
- student_detector.py (StudentDetector)
- parser.py         (GradeParser confidence and score-candidate filtering)
- ocr.py            (retry_with_backoff, MistralOCR.process_image_bytes)
- drive_processor.py (DriveProcessor.process_file_with_detection and the
                     database write path) together with the schema facts of
                     database/models.py.

Modelling conventions:
- Python floats are modelled as exact rationals; datetimes as whole days
  (an integer); byte strings as lists of naturals.
- difflib.SequenceMatcher.ratio is kept abstract as a function argument
  `simFn`; theorems that need it assume only what is true of the real
  function (values in [0,1], value 1 on equal inputs).
- Regular-expression searches of the parser are either implemented
  character-by-character (where a claim depends on them) or abstracted as
  boolean inputs (where only their outcome matters).
- Human-readable reason strings are reproduced up to quote characters and
  numeric formatting, which no checked property depends on beyond the
  case-insensitive substring tests of AssignmentMatcher._determine_method.
-/

namespace Scan

/- Batteries marks the rational arithmetic operations irreducible, which
would stop kernel evaluation of concrete runs; restore the default
reducibility for this development. -/
attribute [local semireducible] Rat.mul Rat.inv Rat.add Rat.sub Rat.ofScientific

/-! ## Character and string helpers mirroring the Python string operations -/

/-- Lowercase a string, as Python str.lower on ASCII text. -/
def lowerStr (s : String) : String := String.mk (s.data.map Char.toLower)

/-- Uppercase a string, as Python str.upper on ASCII text. -/
def upperStr (s : String) : String := String.mk (s.data.map Char.toUpper)

/-- Whitespace in the sense of Python str.split and the regex class \s
(ASCII range). -/
def isSpace (c : Char) : Bool :=
  c = ' ' || c = '\t' || c = '\n' || c = '\r' || c = '\x0b' || c = '\x0c'

/-- Word characters in the sense of the regex class \w (ASCII range). -/
def isWordChar (c : Char) : Bool := c.isAlphanum || c = '_'

/-- Split a character list on whitespace runs, dropping empty pieces, as
Python str.split with no arguments. -/
def splitWs : List Char → List Char → List (List Char)
  | [], acc => if acc.isEmpty then [] else [acc.reverse]
  | c :: rest, acc =>
      if isSpace c then
        if acc.isEmpty then splitWs rest [] else acc.reverse :: splitWs rest []
      else splitWs rest (c :: acc)

/-- First index at which needle occurs in hay, as Python str.find. -/
def findSub (needle : List Char) : List Char → Option Nat
  | [] => if needle.isEmpty then some 0 else none
  | c :: rest =>
      if needle.isPrefixOf (c :: rest) then some 0
      else (findSub needle rest).map (· + 1)

/-- Substring containment on character lists, as the Python `in` operator. -/
def containsSub (needle hay : List Char) : Bool := (findSub needle hay).isSome

/-- Substring containment on strings. -/
def hasSub (s pat : String) : Bool := containsSub pat.toList s.toList

/-- Python str.strip with no arguments: remove leading and trailing
whitespace. -/
def stripStr (s : String) : String :=
  String.mk (((s.data.dropWhile isSpace).reverse.dropWhile isSpace).reverse)

/-- Python truthiness of an optional string (None and "" are falsy). -/
def optNonEmpty : Option String → Bool
  | none => false
  | some s => !s.isEmpty

/-! ## Stable descending sort

Python list.sort is stable; for a fixed key, stable sorting in descending
key order determines the output uniquely, so this insertion sort computes
the same list that `sorted(..., key=..., reverse=True)` does. -/

/-- Plain rendering of a rational for interpolated reason text (the exact
number formatting of the source is irrelevant to every checked property). -/
def ratStr (q : ℚ) : String := toString q.num ++ "/" ++ toString q.den

/-- Insert x before the first element whose key is at most key x. -/
def insertDescBy (key : α → ℚ) (x : α) : List α → List α
  | [] => [x]
  | y :: ys => if key y ≤ key x then x :: y :: ys else y :: insertDescBy key x ys

/-- Stable sort in descending key order. -/
def sortDescBy (key : α → ℚ) : List α → List α
  | [] => []
  | x :: xs => insertDescBy key x (sortDescBy key xs)

theorem insertDescBy_ne_nil (key : α → ℚ) (x : α) (l : List α) :
    insertDescBy key x l ≠ [] := by
  cases l with
  | nil => simp [insertDescBy]
  | cons y ys =>
      by_cases h : key y ≤ key x <;> simp [insertDescBy, h]

theorem mem_insertDescBy (key : α → ℚ) (x a : α) (l : List α) :
    a ∈ insertDescBy key x l ↔ a = x ∨ a ∈ l := by
  induction l with
  | nil => simp [insertDescBy]
  | cons y ys ih =>
      by_cases h : key y ≤ key x
      · simp [insertDescBy, h]
      · simp [insertDescBy, h, ih]
        tauto

theorem insertDescBy_head (key : α → ℚ) (x b : α) (l : List α)
    (hb : (insertDescBy key x l).head? = some b) :
    (b = x ∧ ∀ y, l.head? = some y → key y ≤ key x) ∨
      (l.head? = some b ∧ key x ≤ key b) := by
  cases l with
  | nil =>
      left
      simp [insertDescBy] at hb
      simp [hb.symm]
  | cons y ys =>
      by_cases h : key y ≤ key x
      · left
        simp [insertDescBy, h] at hb
        refine ⟨hb.symm, ?_⟩
        intro z hz
        simp at hz
        rw [← hz]
        exact h
      · right
        simp [insertDescBy, h] at hb
        push_neg at h
        simp [hb.symm]
        exact le_of_lt h

theorem sortDescBy_eq_nil (key : α → ℚ) (l : List α) :
    sortDescBy key l = [] ↔ l = [] := by
  cases l with
  | nil => simp [sortDescBy]
  | cons x xs =>
      simp [sortDescBy]
      exact insertDescBy_ne_nil key x (sortDescBy key xs)

/-- The head of the descending sort is a member of the list and its key
dominates every element. -/
theorem sortDescBy_head_max (key : α → ℚ) :
    ∀ (l : List α) (b : α), (sortDescBy key l).head? = some b →
      b ∈ l ∧ ∀ a ∈ l, key a ≤ key b := by
  intro l
  induction l with
  | nil => intro b hb; simp [sortDescBy] at hb
  | cons x xs ih =>
      intro b hb
      rw [sortDescBy] at hb
      rcases insertDescBy_head key x b (sortDescBy key xs) hb with ⟨hbx, hdom⟩ | ⟨hhd, hxb⟩
      · subst hbx
        constructor
        · exact List.mem_cons_self _ _
        · intro a ha
          rcases List.mem_cons.mp ha with rfl | ha
          · exact le_refl _
          · have hne : xs ≠ [] := by
              intro h; subst h; simp at ha
            have hsne : sortDescBy key xs ≠ [] := by
              intro h; exact hne ((sortDescBy_eq_nil key xs).mp h)
            obtain ⟨y, hy⟩ := List.exists_mem_of_ne_nil _ hsne
            have hhd : (sortDescBy key xs).head? = some ((sortDescBy key xs).head (by exact hsne)) :=
              List.head?_eq_head _
            set hd := (sortDescBy key xs).head hsne with hhdef
            have := ih hd hhd
            exact le_trans (this.2 a ha) (hdom hd hhd)
      · have := ih b hhd
        constructor
        · exact List.mem_cons_of_mem _ this.1
        · intro a ha
          rcases List.mem_cons.mp ha with rfl | ha
          · exact hxb
          · exact this.2 a ha

/-- Mapping commutes with the stable sort when the keys agree. -/
theorem insertDescBy_map (key1 : α → ℚ) (key2 : β → ℚ) (f : α → β)
    (hk : ∀ a, key2 (f a) = key1 a) (x : α) (l : List α) :
    insertDescBy key2 (f x) (l.map f) = (insertDescBy key1 x l).map f := by
  induction l with
  | nil => simp [insertDescBy]
  | cons y ys ih =>
      by_cases h : key1 y ≤ key1 x
      · simp [insertDescBy, hk, h]
      · simp [insertDescBy, hk, h, ih]

theorem sortDescBy_map (key1 : α → ℚ) (key2 : β → ℚ) (f : α → β)
    (hk : ∀ a, key2 (f a) = key1 a) (l : List α) :
    sortDescBy key2 (l.map f) = (sortDescBy key1 l).map f := by
  induction l with
  | nil => simp [sortDescBy]
  | cons x xs ih =>
      simp only [List.map, sortDescBy, ih]
      exact insertDescBy_map key1 key2 f hk x (sortDescBy key1 xs)

/-! ## Directory data model (database/models.py, the fields the scanner reads) -/

/-- Row of the students table (models.py, class Student). -/
structure Student where
  id : Nat
  name : String
deriving DecidableEq

/-- Row of the courses table (models.py, class Course). -/
structure Course where
  id : Nat
  student_id : Nat
  name : String
  is_active : Bool
deriving DecidableEq

/-- Row of the assignments table (models.py, class Assignment); due_at in
whole days, score the Canvas score. -/
structure Assignment where
  id : Nat
  course_id : Nat
  name : String
  due_at : Option Int
  score : Option ℚ
deriving DecidableEq

/-- The read-only directory the detector and matcher query through the
SQLAlchemy session; lists are in table order, which the unordered queries
of the source return deterministically on one store. -/
structure Directory where
  students : List Student
  courses : List Course
  assignments : List Assignment
deriving DecidableEq

/-! ## Parser result model (parser.py, ParsedScore / ParsedDocument) -/

/-- parser.py, dataclass ParsedScore. -/
structure ParsedScore where
  earned : ℚ
  possible : ℚ
  percentage : ℚ
  letter_grade : Option String := none
  raw_text : String := ""
deriving DecidableEq

/-- parser.py, dataclass ParsedDocument (the fields downstream code reads;
the all_titles / all_dates / all_scores lists are internal to parse and
unread by the matcher, detector and orchestrator). -/
structure ParsedDoc where
  title : Option String := none
  date : Option Int := none
  score : Option ParsedScore := none
  student_name : Option String := none
  course_name : Option String := none
  title_confidence : ℚ := 0
  date_confidence : ℚ := 0
  score_confidence : ℚ := 0
  raw_text : String := ""
deriving DecidableEq

/-! ## Assignment matcher (matcher.py, AssignmentMatcher) -/

/-- matcher.py, dataclass MatchResult. -/
structure MatchResult where
  assignment : Option Assignment
  confidence : ℚ
  method : String
  reasons : List String
deriving DecidableEq

/-- Constructor arguments of AssignmentMatcher. -/
structure MatcherConfig where
  titleWeight : ℚ
  dateWeight : ℚ
  courseWeight : ℚ
  dateToleranceDays : Nat
deriving DecidableEq

/-- The default configuration (matcher.py lines 51-54); this is how every
caller in the repository constructs the matcher. -/
def defaultMatcherConfig : MatcherConfig :=
  { titleWeight := 1/2, dateWeight := 3/10, courseWeight := 1/5, dateToleranceDays := 7 }

/-- Title block of AssignmentMatcher._score_match (matcher.py lines
207-218): the title sub-score with its reasons. simFn stands for
AssignmentMatcher._string_similarity, i.e. SequenceMatcher.ratio. -/
def titlePair (simFn : String → String → ℚ) (parsed : ParsedDoc)
    (a : Assignment) : ℚ × List String :=
  match parsed.title with
  | none => (0, [])
  | some t =>
      if t.isEmpty then (0, []) else
      let ts := simFn (lowerStr t) (lowerStr a.name)
      (ts * 100,
        if (8:ℚ)/10 < ts then ["Title match: " ++ ratStr ts ++ " similar"]
        else if (5:ℚ)/10 < ts then ["Partial title match: " ++ ratStr ts ++ " similar"]
        else [])

/-- Date block of _score_match (matcher.py lines 220-230): the date
sub-score with its reasons. -/
def datePair (tol : Nat) (parsed : ParsedDoc) (a : Assignment) : ℚ × List String :=
  match parsed.date, a.due_at with
  | some d, some due =>
      let diff : Nat := (d - due).natAbs
      if diff = 0 then (100, ["Exact date match"])
      else if diff ≤ tol then
        (100 * (1 - (diff : ℚ) / ((tol : ℚ) + 1)),
          ["Date within " ++ toString diff ++ " days"])
      else (0, [])
  | _, _ => (0, [])

/-- Course block of _score_match (matcher.py lines 232-241): the course
sub-score with its reasons. -/
def coursePair (simFn : String → String → ℚ) (dir : Directory)
    (parsed : ParsedDoc) (a : Assignment) : ℚ × List String :=
  match parsed.course_name with
  | none => (0, [])
  | some cn =>
      if cn.isEmpty then (0, []) else
      match dir.courses.find? (fun c => c.id = a.course_id) with
      | none => (0, [])
      | some c =>
          let cs := simFn (lowerStr cn) (lowerStr c.name)
          (cs * 100,
            if (7:ℚ)/10 < cs then ["Course name match: " ++ c.name] else [])

/-- AssignmentMatcher._score_match: weighted total of the three
sub-scores, with the bonus for multiple strong signals, and the
accumulated reasons. -/
def scoreMatch (cfg : MatcherConfig) (simFn : String → String → ℚ)
    (dir : Directory) (parsed : ParsedDoc) (a : Assignment) : ℚ × List String :=
  let tPair := titlePair simFn parsed a
  let dPair := datePair cfg.dateToleranceDays parsed a
  let cPair := coursePair simFn dir parsed a
  let total := tPair.1 * cfg.titleWeight + dPair.1 * cfg.dateWeight + cPair.1 * cfg.courseWeight
  let strong := ([tPair.1, dPair.1, cPair.1].countP (fun s => 70 < s))
  let reasons := tPair.2 ++ dPair.2 ++ cPair.2
  if 2 ≤ strong then (min (total + 10) 100, reasons ++ ["Multiple strong matches"])
  else (total, reasons)

/-- AssignmentMatcher._determine_method. -/
def determineMethod (reasons : List String) : String :=
  let hasTitle := reasons.any (fun r => hasSub (lowerStr r) "title")
  let hasDate := reasons.any (fun r => hasSub (lowerStr r) "date")
  if hasTitle && hasDate then "title+date"
  else if hasTitle then "title"
  else if hasDate then "date"
  else "auto"

/-- AssignmentMatcher._get_candidates: assignments of the student's
courses, date-filtered. today stands for datetime.now(). -/
def getCandidates (cfg : MatcherConfig) (dir : Directory) (today : Int)
    (studentId : Nat) (courseId : Option Nat) (date : Option Int) : List Assignment :=
  dir.assignments.filter (fun a =>
    (dir.courses.any (fun c =>
      decide (c.id = a.course_id) && decide (c.student_id = studentId) &&
        (match courseId with
         | none => true
         | some cid => if cid = 0 then true else decide (c.id = cid)))) &&
    (match date with
     | some d =>
        match a.due_at with
        | some due =>
            decide (d - 2 * (cfg.dateToleranceDays : Int) ≤ due) &&
              decide (due ≤ d + 2 * (cfg.dateToleranceDays : Int))
        | none => false
     | none =>
        match a.due_at with
        | some due => decide (today - 30 ≤ due)
        | none => false))

/-- AssignmentMatcher.find_match. -/
def findMatch (cfg : MatcherConfig) (simFn : String → String → ℚ)
    (dir : Directory) (today : Int) (parsed : ParsedDoc)
    (studentId : Nat) (courseId : Option Nat) : MatchResult :=
  let candidates := getCandidates cfg dir today studentId courseId parsed.date
  if candidates.isEmpty then
    { assignment := none, confidence := 0, method := "none",
      reasons := ["No candidate assignments found"] }
  else
    let scored := candidates.map (fun a => (a, scoreMatch cfg simFn dir parsed a))
    match (sortDescBy (fun x => x.2.1) scored).head? with
    | some best =>
        { assignment := some best.1, confidence := best.2.1,
          method := determineMethod best.2.2, reasons := best.2.2 }
    | none =>
        { assignment := none, confidence := 0, method := "none",
          reasons := ["No candidate assignments found"] }

/-- AssignmentMatcher.find_matches. -/
def findMatches (cfg : MatcherConfig) (simFn : String → String → ℚ)
    (dir : Directory) (today : Int) (parsed : ParsedDoc)
    (studentId : Nat) (courseId : Option Nat) (limit : Nat) : List MatchResult :=
  let candidates := getCandidates cfg dir today studentId courseId parsed.date
  let results := candidates.map (fun a =>
    let sr := scoreMatch cfg simFn dir parsed a
    ({ assignment := some a, confidence := sr.1,
       method := determineMethod sr.2, reasons := sr.2 } : MatchResult))
  (sortDescBy (fun r => r.confidence) results).take limit

/-! ## Student detector (student_detector.py, StudentDetector) -/

/-- student_detector.py, dataclass StudentDetection. -/
structure StudentDetection where
  student : Option Student
  confidence : ℚ
  method : String
  reasons : List String
deriving DecidableEq

/-- StudentDetection.is_confident: confidence at least 70 and a resolved
student. -/
def isConfident (d : StudentDetection) : Bool :=
  decide (70 ≤ d.confidence) && d.student.isSome

/-- QR payload consulted by _detect_from_qr. -/
structure QrData where
  student_id : Option Nat
deriving DecidableEq

/-- StudentDetector._detect_from_qr (a student_id of 0 is falsy in the
source and treated as absent). -/
def detectFromQr (dir : Directory) (qd : QrData) : StudentDetection :=
  let invalid : StudentDetection :=
    { student := none, confidence := 0, method := "qr_code",
      reasons := ["QR code present but invalid student ID"] }
  match qd.student_id with
  | some sid =>
      if sid ≠ 0 then
        match dir.students.find? (fun s => s.id = sid) with
        | some s =>
            { student := some s, confidence := 100, method := "qr_code",
              reasons := ["QR code identified student: " ++ s.name] }
        | none => invalid
      else invalid
  | none => invalid

/-- clean_text inside _detect_from_cover_sheet: replace every character
that is neither a word character nor whitespace by a space, then collapse
whitespace runs to single spaces. -/
def cleanText (t : List Char) : List Char :=
  let repl := t.map (fun c => if isWordChar c || isSpace c then c else ' ')
  List.intercalate [' '] (splitWs repl [])

/-- Uppercase a character list. -/
def upperL (t : List Char) : List Char := t.map Char.toUpper

/-- The name variants checked per student: [first_name, full name], both
uppercased (student_detector.py lines 200-204). -/
def nameVariants (s : Student) : List (List Char) :=
  let nu := (upperStr s.name).toList
  [(splitWs nu []).headD [], nu]

/-- Loop state of _detect_from_cover_sheet: best_match, best_position
(none plays float inf), found_at_end. -/
structure CoverState where
  bestMatch : Option Student
  bestPos : Option Nat
  foundAtEnd : Bool
deriving DecidableEq

/-- pos < best_position, where an unset best_position is infinite. -/
def posLtBest (pos : Nat) (st : CoverState) : Bool :=
  match st.bestPos with
  | none => true
  | some q => pos < q

/-- best_position > 200, where an unset best_position is infinite. -/
def bestGt200 (st : CoverState) : Bool :=
  match st.bestPos with
  | none => true
  | some q => 200 < q

/-- One name variant checked against the first window
(student_detector.py lines 204-210). -/
def coverHeadVar (firstClean : List Char) (s : Student) (st : CoverState)
    (v : List Char) : CoverState :=
  match findSub v firstClean with
  | none => st
  | some pos =>
      if posLtBest pos st then
        { bestMatch := some s, bestPos := some pos, foundAtEnd := false }
      else st

/-- One name variant checked against the last window
(student_detector.py lines 212-225). -/
def coverTailVar (lastClean : List Char) (s : Student) (st : CoverState)
    (v : List Char) : CoverState :=
  if lastClean.isEmpty then st
  else
    match findSub v lastClean with
    | none => st
    | some pos =>
        if pos < 200 && (bestGt200 st || st.foundAtEnd) then
          { bestMatch := some s, bestPos := some pos, foundAtEnd := true }
        else if posLtBest pos st && bestGt200 st then
          { bestMatch := some s, bestPos := some pos, foundAtEnd := true }
        else st

/-- Per-student body of the cover-sheet loop: head window variants, then
tail window variants. -/
def coverStudentStep (firstClean lastClean : List Char) (st : CoverState)
    (s : Student) : CoverState :=
  let st1 := (nameVariants s).foldl (coverHeadVar firstClean s) st
  (nameVariants s).foldl (coverTailVar lastClean s) st1

/-- StudentDetector._detect_from_cover_sheet. -/
def detectFromCoverSheet (students : List Student) (text : String) : StudentDetection :=
  let t := text.toList
  let firstClean := cleanText (upperL (t.take 500))
  let lastClean :=
    if 500 < t.length then cleanText (upperL (t.drop (t.length - 500))) else []
  let final := students.foldl (coverStudentStep firstClean lastClean)
    { bestMatch := none, bestPos := none, foundAtEnd := false }
  match final.bestMatch with
  | some s =>
      let posBelow200 : Bool :=
        match final.bestPos with
        | some p => p < 200
        | none => false
      let location := if final.foundAtEnd then "end" else "beginning"
      if posBelow200 then
        { student := some s, confidence := 98, method := "cover_sheet",
          reasons := ["Cover sheet detected at " ++ location ++ ": " ++ s.name] }
      else
        { student := some s, confidence := 70, method := "cover_sheet",
          reasons := ["Name " ++ s.name ++ " found at " ++ location ++ " of document"] }
  | none =>
      { student := none, confidence := 0, method := "cover_sheet",
        reasons := ["No student name found in first or last portion of document"] }

/-- Per-student update of the _detect_from_name loop state
(best_match, best_confidence, reasons): first-name, last-name and fuzzy
checks in source order. -/
def nameStep (simFn : String → String → ℚ) (nameL : String)
    (parts : List (List Char)) (st : Option Student × ℚ × List String)
    (s : Student) : Option Student × ℚ × List String :=
  let snL := lowerStr s.name
  let sparts := splitWs snL.toList []
  let st1 : Option Student × ℚ × List String :=
    if !parts.isEmpty && !sparts.isEmpty &&
        decide (parts.head? = sparts.head?) && decide (st.2.1 < 70) then
      (some s, 70, ["First name match in " ++ s.name])
    else st
  let st2 : Option Student × ℚ × List String :=
    if decide (2 ≤ parts.length) && decide (2 ≤ sparts.length) &&
        decide (parts.getLast? = sparts.getLast?) && decide (st1.2.1 < 70) then
      (some s, 70, ["Last name match in " ++ s.name])
    else st1
  let sim := simFn nameL snL
  if (8:ℚ)/10 < sim then
    let fc : ℚ := (Rat.floor (sim * 100) : ℤ)
    if st2.2.1 < fc then (some s, fc, ["Fuzzy name match with " ++ s.name])
    else st2
  else st2

/-- Loop of StudentDetector._detect_from_name over the students, carried
state (best_match, best_confidence, reasons); an exact match returns
immediately. -/
def detectFromNameLoop (simFn : String → String → ℚ) (nameL : String)
    (parts : List (List Char)) :
    List Student → Option Student → ℚ → List String → StudentDetection
  | [], best, conf, reasons =>
      let unresolved : StudentDetection :=
        { student := none, confidence := conf, method := "ocr_name",
          reasons := if reasons.isEmpty then ["No student match for name"] else reasons }
      match best with
      | some s =>
          if 70 ≤ conf then
            { student := some s, confidence := conf, method := "ocr_name",
              reasons := reasons }
          else unresolved
      | none => unresolved
  | s :: rest, best, conf, reasons =>
      if nameL = lowerStr s.name then
        { student := some s, confidence := 95, method := "ocr_name",
          reasons := ["Exact name match: " ++ nameL ++ " = " ++ s.name] }
      else
        let st := nameStep simFn nameL parts (best, conf, reasons) s
        detectFromNameLoop simFn nameL parts rest st.1 st.2.1 st.2.2

/-- StudentDetector._detect_from_name. -/
def detectFromName (dir : Directory) (simFn : String → String → ℚ)
    (name : String) : StudentDetection :=
  let nameL := stripStr (lowerStr name)
  detectFromNameLoop simFn nameL (splitWs nameL.toList []) dir.students none 0 []

/-- The cached active courses of one student, in table order
(_get_courses_by_student). -/
def activeCoursesOf (dir : Directory) (sid : Nat) : List Course :=
  dir.courses.filter (fun c => c.is_active && decide (c.student_id = sid))

/-- StudentDetector._detect_from_course. -/
def detectFromCourse (dir : Directory) (simFn : String → String → ℚ)
    (courseName : String) : StudentDetection :=
  let courseL := stripStr (lowerStr courseName)
  let matching : List (Student × Course) := dir.students.filterMap (fun s =>
    ((activeCoursesOf dir s.id).find? (fun c =>
      let cnL := lowerStr c.name
      containsSub courseL.toList cnL.toList ||
        containsSub cnL.toList courseL.toList ||
        decide ((7:ℚ)/10 < simFn courseL cnL))).map (fun c => (s, c)))
  match matching with
  | [] =>
      { student := none, confidence := 0, method := "course_match",
        reasons := ["No course match for: " ++ courseName] }
  | [(s, c)] =>
      { student := some s, confidence := 85, method := "course_match",
        reasons := ["Unique course match: " ++ courseName ++ " is " ++ s.name ++ " course " ++ c.name] }
  | _ =>
      { student := none, confidence := 50, method := "course_match",
        reasons := ["Course " ++ courseName ++ " shared by multiple students"] }

/-- Loop state of _detect_from_assignment: best_similarity,
best_assignment, best_match. -/
def assignLoopStep (dir : Directory) (simFn : String → String → ℚ)
    (titleL : String) (st : ℚ × Option Assignment × Option Student)
    (a : Assignment) : ℚ × Option Assignment × Option Student :=
  let sim := simFn titleL (lowerStr a.name)
  if st.1 < sim then
    let newMatch : Option Student :=
      match dir.courses.find? (fun c => c.id = a.course_id) with
      | some c => dir.students.find? (fun s => s.id = c.student_id)
      | none => st.2.2
    (sim, some a, newMatch)
  else st

/-- Candidate query of _detect_from_assignment: assignments of active
courses, due within 14 days of the parsed date, or within the last 60 days
when no date parsed. -/
def assignCandidates (dir : Directory) (today : Int) (date : Option Int) : List Assignment :=
  dir.assignments.filter (fun a =>
    (dir.courses.any (fun c => decide (c.id = a.course_id) && c.is_active)) &&
    (match date with
     | some d =>
        match a.due_at with
        | some due => decide (d - 14 ≤ due) && decide (due ≤ d + 14)
        | none => false
     | none =>
        match a.due_at with
        | some due => decide (today - 60 ≤ due)
        | none => false))

/-- StudentDetector._detect_from_assignment. -/
def detectFromAssignment (dir : Directory) (simFn : String → String → ℚ)
    (today : Int) (title : String) (date : Option Int) : StudentDetection :=
  let titleL := stripStr (lowerStr title)
  let final := (assignCandidates dir today date).foldl
    (assignLoopStep dir simFn titleL) (0, none, none)
  match final.2.2 with
  | some s =>
      if (7:ℚ)/10 ≤ final.1 then
        { student := some s, confidence := ((Rat.floor (final.1 * 75) : ℤ) : ℚ),
          method := "assignment_match",
          reasons := ["Assignment title match: " ++ title, "Belongs to " ++ s.name] }
      else
        { student := none, confidence := 0, method := "assignment_match",
          reasons := ["No assignment match for title: " ++ title] }
  | none =>
      { student := none, confidence := 0, method := "assignment_match",
        reasons := ["No assignment match for title: " ++ title] }

/-- Stage 6 of the cascade: the ambiguous fallback with the accumulated
reasons (student_detector.py lines 135-144). -/
def detectAmbiguous (rs : List String) : StudentDetection :=
  { student := none, confidence := 0, method := "ambiguous",
    reasons := if rs.isEmpty then ["No identifying information found in document"] else rs }

/-- Stage 5 of the cascade: assignment-title match, then the fallback. -/
def detectStage5 (dir : Directory) (simFn : String → String → ℚ) (today : Int)
    (parsed : ParsedDoc) (rs : List String) : StudentDetection :=
  match parsed.title with
  | some t =>
      if t.isEmpty then detectAmbiguous rs
      else
        let r := detectFromAssignment dir simFn today t parsed.date
        if isConfident r then r else detectAmbiguous (rs ++ r.reasons)
  | none => detectAmbiguous rs

/-- Stage 4 of the cascade: course match, then stage 5. -/
def detectStage4 (dir : Directory) (simFn : String → String → ℚ) (today : Int)
    (parsed : ParsedDoc) (rs : List String) : StudentDetection :=
  match parsed.course_name with
  | some cn =>
      if cn.isEmpty then detectStage5 dir simFn today parsed rs
      else
        let r := detectFromCourse dir simFn cn
        if isConfident r then r else detectStage5 dir simFn today parsed (rs ++ r.reasons)
  | none => detectStage5 dir simFn today parsed rs

/-- Stage 3 of the cascade: OCR-name match, then stage 4. -/
def detectStage3 (dir : Directory) (simFn : String → String → ℚ) (today : Int)
    (parsed : ParsedDoc) (rs : List String) : StudentDetection :=
  match parsed.student_name with
  | some n =>
      if n.isEmpty then detectStage4 dir simFn today parsed rs
      else
        let r := detectFromName dir simFn n
        if isConfident r then r else detectStage4 dir simFn today parsed (rs ++ r.reasons)
  | none => detectStage4 dir simFn today parsed rs

/-- Stage 2 of the cascade and below: cover-sheet scan on the chosen text,
then stages 3-6. -/
def detectAfterQr (dir : Directory) (simFn : String → String → ℚ) (today : Int)
    (parsed : ParsedDoc) (rawText : Option String) : StudentDetection :=
  let textToCheck : String :=
    match rawText with
    | some t => if t.isEmpty then parsed.raw_text else t
    | none => parsed.raw_text
  if textToCheck.isEmpty then detectStage3 dir simFn today parsed []
  else
    let r2 := detectFromCoverSheet dir.students textToCheck
    if isConfident r2 then r2 else detectStage3 dir simFn today parsed r2.reasons

/-- StudentDetector.detect: the reliability-ordered cascade with reason
accumulation. -/
def detect (dir : Directory) (simFn : String → String → ℚ) (today : Int)
    (parsed : ParsedDoc) (qrData : Option QrData) (rawText : Option String) :
    StudentDetection :=
  let qrResult : Option StudentDetection :=
    match qrData with
    | none => none
    | some qd =>
        let r := detectFromQr dir qd
        if r.student.isSome then some r else none
  match qrResult with
  | some r => r
  | none => detectAfterQr dir simFn today parsed rawText

/-! ## Grade parser: confidence heuristics and the score-candidate filter
(parser.py, GradeParser) -/

/-- GradeParser._calculate_score_confidence; the keyword-context regex
outcome on the surrounding text is abstracted as ctxFound. -/
def calcScoreConfidence (score : ParsedScore) (ctxFound : Bool) : ℚ :=
  let c1 : ℚ := 50
  let c2 := if 0 < score.possible then c1 + 20 else c1
  let c3 := if ctxFound then c2 + 20 else c2
  let c4 := if optNonEmpty score.letter_grade then c3 + 10 else c3
  min c4 100

/-- GradeParser._calculate_date_confidence; daysDiff is the absolute day
distance to now, kwFound the outcome of the keyword regex loop. -/
def calcDateConfidence (daysDiff : Nat) (kwFound : Bool) : ℚ :=
  let c1 : ℚ := 50
  let c2 := if kwFound then c1 + 15 else c1
  let c3 := if daysDiff < 30 then c2 + 20
    else if daysDiff < 90 then c2 + 10 else c2
  min c3 100

/-- Keyword list of _calculate_title_confidence. -/
def titleKeywords : List String :=
  ["test", "quiz", "exam", "homework", "assignment", "chapter", "unit"]

/-- GradeParser._calculate_title_confidence. -/
def calcTitleConfidence (title : String) (text : String) : ℚ :=
  let c1 : ℚ := 40
  let c2 := if titleKeywords.any (fun k => hasSub (lowerStr title) k) then c1 + 15 else c1
  let c3 := if ((lowerStr title).toList.take 20).isPrefixOf (lowerStr (stripStr text)).toList
    then c2 + 20 else c2
  let c4 := if 10 < title.length ∧ title.length < 50 then c3 + 10 else c3
  min c4 100

/-- Four consecutive digits somewhere in the text (the regex \d\{4\} under
re.search). -/
def hasFourDigitRun : List Char → Bool
  | [] => false
  | c :: rest =>
      (c.isDigit && decide ((rest.take 3).length = 3) && (rest.take 3).all Char.isDigit) ||
        hasFourDigitRun rest

/-- re.search of date|due|\d\{4\} on the raw match text, case-insensitive
(parser.py line 272). -/
def dateContext (raw : String) : Bool :=
  hasSub (lowerStr raw) "date" || hasSub (lowerStr raw) "due" ||
    hasFourDigitRun raw.toList

/-- GradeParser._looks_like_date. -/
def looksLikeDate (num1 num2 : ℚ) (raw : String) : Bool :=
  (decide (1 ≤ num1) && decide (num1 ≤ 12) && decide (1 ≤ num2) && decide (num2 ≤ 31)) ||
  (decide (1 ≤ num1) && decide (num1 ≤ 31) && decide (2020 ≤ num2) && decide (num2 ≤ 2030)) ||
  (dateContext raw &&
    ((decide (1 ≤ num1) && decide (num1 ≤ 31)) || (decide (1 ≤ num2) && decide (num2 ≤ 31))))

/-- Python round(x, 1): round half to even at one decimal (exact-rational
reading of the float rounding the source performs). -/
def pyRound1 (x : ℚ) : ℚ :=
  let y := x * 10
  let f : ℤ := Rat.floor y
  let frac := y - (f : ℚ)
  let r : ℤ :=
    if frac < 1/2 then f
    else if 1/2 < frac then f + 1
    else if f % 2 = 0 then f else f + 1
  (r : ℚ) / 10

/-- The fraction branch of GradeParser._extract_scores (lines 194-212):
given the two captured numbers of a match with both groups present and
the whole-match text, the score candidate emitted, if any. -/
def processFractionMatch (earned possible : ℚ) (raw : String) : Option ParsedScore :=
  if looksLikeDate earned possible raw then none
  else if 0 < possible then
    let percentage := earned / possible * 100
    if 200 < percentage ∨ 1000 < possible then none
    else some { earned := earned, possible := possible,
                percentage := pyRound1 percentage, letter_grade := none, raw_text := raw }
  else none

/-- The percentage-only branch of _extract_scores (lines 213-222). -/
def processPercentMatch (p : ℚ) (raw : String) : Option ParsedScore :=
  if 0 ≤ p ∧ p ≤ 100 then
    some { earned := p, possible := 100, percentage := p,
           letter_grade := none, raw_text := raw }
  else none

/-- GradeParser._letter_to_percentage. -/
def letterToPercentage (letter : String) : ℚ :=
  let table : List (String × ℚ) :=
    [("A+", 97), ("A", 94), ("A-", 90),
     ("B+", 87), ("B", 84), ("B-", 80),
     ("C+", 77), ("C", 74), ("C-", 70),
     ("D+", 67), ("D", 64), ("D-", 60),
     ("F", 50)]
  match table.find? (fun kv => kv.1 = upperStr letter) with
  | some kv => kv.2
  | none => 0

/-- The letter-grade-only candidate appended by _extract_scores
(lines 236-243). -/
def letterOnlyScore (letter raw : String) : ParsedScore :=
  { earned := 0, possible := 0, percentage := letterToPercentage letter,
    letter_grade := some letter, raw_text := raw }

/-! ## OCR retry and process_image_bytes (ocr.py) -/

/-- ocr.py line 23. -/
def MAX_RETRIES : Nat := 3
/-- ocr.py line 24 (seconds). -/
def INITIAL_RETRY_DELAY : Nat := 1
/-- ocr.py line 25 (seconds). -/
def MAX_RETRY_DELAY : Nat := 32

/-- Loop body of retry_with_backoff; attempt is the 0-based loop counter,
fuel the remaining iterations, delay the current delay variable. The
provider call is a function from the attempt number to its outcome.
Returns the final outcome (the raise after the last attempt becomes the
error) with the list of sleeps performed. -/
def retryGo (f : Nat → Except String α) : Nat → Nat → Nat → Except String α × List Nat
  | _, 0, _ => (Except.error "", [])
  | attempt, fuel + 1, delay =>
      match f attempt with
      | Except.ok a => (Except.ok a, [])
      | Except.error e =>
          if fuel = 0 then (Except.error e, [])
          else
            let d := min (delay * 2) MAX_RETRY_DELAY
            let rest := retryGo f (attempt + 1) fuel d
            (rest.1, d :: rest.2)

/-- ocr.py, retry_with_backoff (lines 79-94). -/
def retryWithBackoff (f : Nat → Except String α) : Except String α × List Nat :=
  retryGo f 0 MAX_RETRIES INITIAL_RETRY_DELAY

/-- list(SUPPORTED_IMAGE_FORMATS.values()), ocr.py lines 28-34 (the jpeg
entry appears for both .jpg and .jpeg). -/
def SUPPORTED_IMAGE_MIMES : List String :=
  ["image/png", "image/jpeg", "image/jpeg", "image/webp", "image/gif"]

/-- The outcome fields of ocr.py OCRResult that downstream code reads:
success, error and the concatenated page text (full_text); the remaining
metadata fields (timing, sizes, model name) are never read by the
pipeline. -/
structure OCRRes where
  success : Bool
  error : Option String
  fullText : String
deriving DecidableEq

/-- MistralOCR.process_image_bytes (lines 158-234): mime validation, then
the retried provider call; a raise out of the retries is caught and
reported as success=false with the stringified exception. The provider is
abstracted as a function from the attempt number to page text or error. -/
def processImageBytes (provider : Nat → Except String String)
    (mimeType : String) : OCRRes :=
  if ¬ SUPPORTED_IMAGE_MIMES.contains mimeType then
    { success := false, error := some ("Unsupported MIME type: " ++ mimeType),
      fullText := "" }
  else
    match (retryWithBackoff provider).1 with
    | Except.ok text => { success := true, error := none, fullText := text }
    | Except.error e => { success := false, error := some e, fullText := "" }

/-! ## Ingestion pipeline orchestrator
(drive_processor.py, DriveProcessor.process_file_with_detection) and the
persisted scanned_documents rows (database/models.py).

Schema fact used throughout: models.py line 143 declares
file_hash = Column(String(64), index=True) and migration b3d9e6f42c8a
creates a plain (non-unique) index, so an insert never fails on a
duplicate digest; _save_to_database_with_detection commits without any
conflict handling. -/

/-- Row of scanned_documents with the columns the scanner writes. -/
structure DocRecord where
  id : Nat
  student_id : Option Nat
  assignment_id : Option Nat
  file_name : String
  file_size : Nat
  mime_type : String
  source : String
  ocr_text : String
  detected_title : Option String
  detected_date : Option Int
  detected_score : Option ℚ
  detected_max_score : Option ℚ
  match_confidence : ℚ
  match_method : String
  file_hash : Option String
  status : String
  detection_confidence : ℚ
  detection_method : String
  canvas_score : Option ℚ
  score_discrepancy : Option ℚ
deriving DecidableEq

/-- The scanned_documents table, in insertion order. -/
abbrev Store := List DocRecord

/-- DriveProcessor._check_duplicate: first row with the given digest. -/
def checkDuplicate (store : Store) (h : String) : Option DocRecord :=
  store.find? (fun r => r.file_hash = some h)

/-- Autoincrement primary key for the next insert. -/
def nextId (store : Store) : Nat := (store.foldl (fun m r => max m r.id) 0) + 1

/-- Observable side effects of one process_file_with_detection call. -/
inductive Effect where
  | download
  | ocrCall
  | insertRow (id : Nat)
  | moveFile (dest : String)
deriving DecidableEq

/-- The collaborators and per-file inputs of one
process_file_with_detection call. hashFn stands for
hashlib.sha256(...).hexdigest(), ocrFn for the OCR component, parseFn for
GradeParser.parse, simFn for SequenceMatcher.ratio, today for
datetime.now() in days. -/
structure PipelineEnv where
  bytes : List Nat
  hashFn : List Nat → String
  fileName : String
  fileSize : Nat
  mimeType : String
  ocrFn : List Nat → OCRRes
  parseFn : String → ParsedDoc
  dir : Directory
  simFn : String → String → ℚ
  today : Int

/-- drive_processor.py, dataclass DriveProcessingResult (the drive_file
field is the env metadata and omitted). -/
structure ProcResult where
  ocr_result : Option OCRRes
  parsed : Option ParsedDoc
  mtch : Option MatchResult
  student_detection : Option StudentDetection
  document_id : Option Nat
  success : Bool
  status : String
  error : Option String
  file_hash : Option String
deriving DecidableEq

/-- DriveProcessor._save_to_database_with_detection (lines 512-560): the
row constructed and committed; includes the canvas_score /
score_discrepancy logic. -/
def buildDoc (env : PipelineEnv) (parsed : ParsedDoc) (mtch : Option MatchResult)
    (det : StudentDetection) (studentId : Option Nat) (status : String)
    (h : String) (newId : Nat) (ocrText : String) : DocRecord :=
  let base : DocRecord := {
    id := newId
    student_id := studentId
    assignment_id := match mtch with
      | some m => m.assignment.map (fun a => a.id)
      | none => none
    file_name := env.fileName
    file_size := env.fileSize
    mime_type := env.mimeType
    source := "google_drive"
    ocr_text := ocrText
    detected_title := parsed.title
    detected_date := parsed.date
    detected_score := parsed.score.map (fun s => s.earned)
    detected_max_score := parsed.score.map (fun s => s.possible)
    match_confidence := match mtch with | some m => m.confidence | none => 0
    match_method := match mtch with | some m => m.method | none => "none"
    file_hash := some h
    status := status
    detection_confidence := det.confidence
    detection_method := det.method
    canvas_score := none
    score_discrepancy := none }
  match mtch with
  | some m =>
      match m.assignment with
      | some a =>
          match a.score with
          | some cs =>
              let b2 := { base with canvas_score := some cs }
              match parsed.score with
              | some ps =>
                  if ps.earned ≠ 0 then { b2 with score_discrepancy := some (ps.earned - cs) }
                  else b2
              | none => b2
          | none => base
      | none => base
  | none => base

/-- The duplicate short-circuit result (drive_processor.py lines 211-224). -/
def duplicateResult (h : String) (ex : DocRecord) : ProcResult :=
  { ocr_result := none, parsed := none, mtch := none, student_detection := none,
    document_id := some ex.id, success := true, status := "duplicate",
    error := some ("Duplicate of document ID " ++ toString ex.id),
    file_hash := some h }

/-- Everything process_file_with_detection does after the duplicate check
passed: OCR, parse, detect, status decision, match, database insert, file
move (lines 226-319). -/
def commitPhase (env : PipelineEnv) (threshold : ℚ) (store : Store) (h : String) :
    ProcResult × Store × List Effect :=
  let ocr := env.ocrFn env.bytes
  if ocr.success = false then
    ({ ocr_result := some ocr, parsed := none, mtch := none,
       student_detection := none, document_id := none, success := false,
       status := "failed", error := ocr.error, file_hash := none },
     store, [Effect.ocrCall])
  else
    let parsed := env.parseFn ocr.fullText
    let det := detect env.dir env.simFn env.today parsed none none
    let confid : Bool := isConfident det && decide (threshold ≤ det.confidence)
    let status := if confid then "processed" else "pending"
    let studentId : Option Nat := det.student.map (fun s => s.id)
    let destFolder : String :=
      if confid then
        match det.student with
        | some s => String.mk ((splitWs s.name.toList []).headD [])
        | none => "Pending"
      else "Pending"
    let mtch : Option MatchResult :=
      match studentId with
      | some sid =>
          if sid = 0 then none
          else some (findMatch defaultMatcherConfig env.simFn env.dir env.today parsed sid none)
      | none => none
    let newId := nextId store
    let doc := buildDoc env parsed mtch det studentId status h newId ocr.fullText
    ({ ocr_result := some ocr, parsed := some parsed, mtch := mtch,
       student_detection := some det, document_id := some newId, success := true,
       status := status, error := none, file_hash := some h },
     store ++ [doc], [Effect.ocrCall, Effect.insertRow newId, Effect.moveFile destFolder])

/-- DriveProcessor.process_file_with_detection: download, digest, duplicate
check, then the commit phase. -/
def processFileWithDetection (env : PipelineEnv) (store : Store) (threshold : ℚ) :
    ProcResult × Store × List Effect :=
  let h := env.hashFn env.bytes
  match checkDuplicate store h with
  | some ex => (duplicateResult h ex, store, [Effect.download])
  | none =>
      let out := commitPhase env threshold store h
      (out.1, out.2.1, Effect.download :: out.2.2)

/-! ## Two pipeline instances racing on the same store

Each instance runs the duplicate check and, later, the unconditional
insert; an interleaving chooses which instance moves. This is the
concurrency model of spec section 5. -/

/-- Progress of one pipeline instance: before the duplicate check, after
passing it (digest remembered), or finished. -/
inductive PPhase where
  | start
  | ready (h : String)
  | done (r : ProcResult)
deriving DecidableEq

/-- One step of a single instance against the shared store. -/
def procStep (env : PipelineEnv) (threshold : ℚ) :
    Store × PPhase → Store × PPhase
  | (store, PPhase.start) =>
      let h := env.hashFn env.bytes
      (match checkDuplicate store h with
       | some ex => (store, PPhase.done (duplicateResult h ex))
       | none => (store, PPhase.ready h))
  | (store, PPhase.ready h) =>
      let out := commitPhase env threshold store h
      (out.2.1, PPhase.done out.1)
  | (store, PPhase.done r) => (store, PPhase.done r)

/-- Interleaving of two instances over the shared store. -/
inductive RaceStep (env : PipelineEnv) (threshold : ℚ) :
    Store × PPhase × PPhase → Store × PPhase × PPhase → Prop
  | left (s : Store) (p1 p2 : PPhase) :
      RaceStep env threshold (s, p1, p2)
        ((procStep env threshold (s, p1)).1, (procStep env threshold (s, p1)).2, p2)
  | right (s : Store) (p1 p2 : PPhase) :
      RaceStep env threshold (s, p1, p2)
        ((procStep env threshold (s, p2)).1, p1, (procStep env threshold (s, p2)).2)

/-- Reachability of the two-instance system. -/
def RaceReach (env : PipelineEnv) (threshold : ℚ) :
    Store × PPhase × PPhase → Store × PPhase × PPhase → Prop :=
  Relation.ReflTransGen (RaceStep env threshold)

/-- A concrete environment for closed runs of the pipeline: empty
directory, successful OCR, constant digest. -/
def raceEnv : PipelineEnv :=
  { bytes := [1, 2, 3], hashFn := fun _ => "h0", fileName := "f.png", fileSize := 3,
    mimeType := "image/png",
    ocrFn := fun _ => { success := true, error := none, fullText := "hello world" },
    parseFn := fun t => { raw_text := t },
    dir := ⟨[], [], []⟩, simFn := fun _ _ => 0, today := 0 }

/-! ## Shared helper lemmas -/

theorem ratFloor_eq_floor (q : ℚ) : Rat.floor q = ⌊q⌋ := by
  rw [Rat.floor_def', Rat.floor_def]

theorem ratFloor_le (q : ℚ) (n : ℤ) (h : q ≤ (n : ℚ)) : Rat.floor q ≤ n := by
  rw [ratFloor_eq_floor]
  calc ⌊q⌋ ≤ ⌊(n : ℚ)⌋ := Int.floor_le_floor h
    _ = n := Int.floor_intCast n

theorem ratFloor_nonneg (q : ℚ) (h : 0 ≤ q) : (0 : ℤ) ≤ Rat.floor q := by
  rw [ratFloor_eq_floor]
  exact Int.floor_nonneg.mpr h

theorem containsSub_of_isPrefixOf (p l : List Char) (h : p.isPrefixOf l = true) :
    containsSub p l = true := by
  cases l with
  | nil =>
      cases p with
      | nil => decide
      | cons c r => simp [List.isPrefixOf] at h
  | cons c r =>
      simp [containsSub, findSub, h]

theorem isPrefixOf_append (p l z : List Char) (h : p.isPrefixOf l = true) :
    p.isPrefixOf (l ++ z) = true := by
  rw [List.isPrefixOf_iff_prefix] at h ⊢
  exact h.trans (List.prefix_append l z)

theorem head?_take (l : List α) (n : Nat) (h : 0 < n) : (l.take n).head? = l.head? := by
  cases l with
  | nil => simp
  | cons x xs =>
      cases n with
      | zero => exact absurd h (by simp)
      | succ m => simp

/-! ## Claim C9: OCR retry policy -/

/-- Full enumeration of retry_with_backoff over the three attempts. -/
theorem retryWithBackoff_eq (f : Nat → Except String α) :
    retryWithBackoff f =
      match f 0 with
      | Except.ok a => (Except.ok a, [])
      | Except.error _ =>
        match f 1 with
        | Except.ok a => (Except.ok a, [2])
        | Except.error _ =>
          match f 2 with
          | Except.ok a => (Except.ok a, [2, 4])
          | Except.error e => (Except.error e, [2, 4]) := by
  cases h0 : f 0 <;> cases h1 : f 1 <;> cases h2 : f 2 <;>
    simp [retryWithBackoff, retryGo, MAX_RETRIES, INITIAL_RETRY_DELAY, MAX_RETRY_DELAY,
      h0, h1, h2]

/-- C9 counterexample: with an always-failing provider the first backoff
sleep is 2 seconds, not the 1 second the claim states (ocr.py doubles the
delay before the first sleep). -/
theorem C9_counterexample :
    (retryWithBackoff
        (fun i => (Except.error ("provider timeout " ++ toString i) : Except String String))).2.head?
      = some 2 ∧
    (retryWithBackoff
        (fun i => (Except.error ("provider timeout " ++ toString i) : Except String String))).2.head?
      ≠ some 1 := by
  constructor <;> decide

/-- C9 (amended): a transient provider failure is attempted up to 3 times;
the sleeps are a prefix of [2, 4] (the initial 1-second delay is doubled
and capped at 32 before each sleep, so the first sleep is 2 seconds), every
sleep is at most 32 seconds, and when all three attempts fail
process_image_bytes returns success=false carrying the last error instead
of raising. -/
theorem C9_retry_and_failure_reporting
    (f : Nat → Except String String) (mime : String) (e0 e1 e2 : String)
    (h0 : f 0 = Except.error e0) (h1 : f 1 = Except.error e1)
    (h2 : f 2 = Except.error e2)
    (hmime : SUPPORTED_IMAGE_MIMES.contains mime = true) :
    processImageBytes f mime = { success := false, error := some e2, fullText := "" } ∧
    (retryWithBackoff f).2 = [2, 4] ∧
    (∀ g : Nat → Except String String, ∃ n, n ≤ MAX_RETRIES - 1 ∧
      (retryWithBackoff g).2 = List.take n [2, 4] ∧
      ∀ d ∈ (retryWithBackoff g).2, d ≤ MAX_RETRY_DELAY) := by
  refine ⟨?_, ?_, ?_⟩
  · simp only [processImageBytes, hmime, not_true_eq_false, if_false]
    rw [retryWithBackoff_eq f, h0, h1, h2]
  · rw [retryWithBackoff_eq f, h0, h1, h2]
  · intro g
    cases hg0 : g 0 with
    | ok a =>
        refine ⟨0, by decide, ?_, ?_⟩ <;> rw [retryWithBackoff_eq g, hg0] <;> simp
    | error ea =>
        cases hg1 : g 1 with
        | ok a =>
            refine ⟨1, by decide, ?_, ?_⟩ <;> rw [retryWithBackoff_eq g, hg0, hg1] <;>
              simp [MAX_RETRY_DELAY]
        | error eb =>
            cases hg2 : g 2 with
            | ok a =>
                refine ⟨2, by decide, ?_, ?_⟩ <;> rw [retryWithBackoff_eq g, hg0, hg1, hg2] <;>
                  simp [MAX_RETRY_DELAY]
            | error ec =>
                refine ⟨2, by decide, ?_, ?_⟩ <;> rw [retryWithBackoff_eq g, hg0, hg1, hg2] <;>
                  simp [MAX_RETRY_DELAY]

/-- Witness for C9 at a concrete always-failing provider. -/
theorem C9_retry_witness :
    processImageBytes (fun _ => Except.error "boom") "image/png" =
      { success := false, error := some "boom", fullText := "" } :=
  (C9_retry_and_failure_reporting (fun _ => Except.error "boom") "image/png"
    "boom" "boom" "boom" rfl rfl rfl (by decide)).1

/-! ## Claim C8: score-candidate rejection filters -/

/-- C8 counterexample: the fraction 0/15 is emitted as a score candidate
although its first number is at most 12 and its second at most 31 (the
source requires both numbers to be at least 1 before treating them as a
date). -/
theorem C8_counterexample :
    processFractionMatch 0 15 "0/15" =
      some { earned := 0, possible := 15, percentage := 0,
             letter_grade := none, raw_text := "0/15" } ∧
    (0 : ℚ) ≤ 12 ∧ (15 : ℚ) ≤ 31 := by
  refine ⟨by decide, by norm_num, by norm_num⟩

/-- Every letter grade in the conversion table maps to at most 97 percent. -/
theorem letterToPercentage_le (letter : String) : letterToPercentage letter ≤ 97 := by
  rw [letterToPercentage]
  rcases hfind : List.find? (fun kv => kv.1 = upperStr letter)
      [(("A+" : String), (97 : ℚ)), ("A", 94), ("A-", 90),
       ("B+", 87), ("B", 84), ("B-", 80),
       ("C+", 77), ("C", 74), ("C-", 70),
       ("D+", 67), ("D", 64), ("D-", 60),
       ("F", 50)] with _ | kv
  · simp only [hfind]
    norm_num
  · have hmem := List.mem_of_find?_eq_some hfind
    have hle : kv.2 ≤ 97 := by fin_cases hmem <;> norm_num
    simp only [hfind]
    exact hle

/-- C8 (amended): an emitted fraction candidate never has both numbers in
the calendar ranges [1,12]x[1,31] or [1,31]x[2020,2030]; under date-like
context in the match text neither number lies in [1,31]; its computed
percentage is at most 200 and its denominator at most 1000 — and the same
percentage/denominator bounds hold for percentage-only and
letter-grade-only candidates. In particular 5/12 with date context is not
emitted. -/
theorem C8_score_candidate_filters (e p : ℚ) (raw : String) (s : ParsedScore)
    (h : processFractionMatch e p raw = some s) :
    ¬(1 ≤ e ∧ e ≤ 12 ∧ 1 ≤ p ∧ p ≤ 31) ∧
    ¬(1 ≤ e ∧ e ≤ 31 ∧ 2020 ≤ p ∧ p ≤ 2030) ∧
    (dateContext raw = true → ¬((1 ≤ e ∧ e ≤ 31) ∨ (1 ≤ p ∧ p ≤ 31))) ∧
    s.earned / s.possible * 100 ≤ 200 ∧ s.possible ≤ 1000 ∧
    processFractionMatch 5 12 "Date: 5/12" = none ∧
    (∀ (q : ℚ) (raw2 : String) (s2 : ParsedScore),
      processPercentMatch q raw2 = some s2 → s2.percentage ≤ 200 ∧ s2.possible ≤ 1000) ∧
    (∀ letter raw3, (letterOnlyScore letter raw3).percentage ≤ 200 ∧
      (letterOnlyScore letter raw3).possible ≤ 1000) := by
  have hdate : looksLikeDate e p raw = false := by
    by_contra hx
    rw [Bool.not_eq_false] at hx
    rw [processFractionMatch, hx] at h
    simp at h
  have hpos : 0 < p := by
    by_contra hx
    rw [processFractionMatch, hdate] at h
    simp only [Bool.false_eq_true, if_false] at h
    rw [if_neg hx] at h
    exact Option.noConfusion h
  have hfil : ¬(200 < e / p * 100 ∨ 1000 < p) := by
    by_cases hx : 200 < e / p * 100 ∨ 1000 < p
    · rw [processFractionMatch, hdate] at h
      simp only [Bool.false_eq_true, if_false] at h
      rw [if_pos hpos, if_pos hx] at h
      exact absurd h (by simp)
    · exact hx
  push_neg at hfil
  have hs : s.earned = e ∧ s.possible = p := by
    rw [processFractionMatch, hdate] at h
    simp only [Bool.false_eq_true, if_false] at h
    rw [if_pos hpos, if_neg (by push_neg; exact hfil)] at h
    cases h
    exact ⟨rfl, rfl⟩
  refine ⟨?_, ?_, ?_, ?_, ?_, by decide, ?_, ?_⟩
  · rintro ⟨a, b, c, d⟩
    rw [looksLikeDate] at hdate
    simp [a, b, c, d] at hdate
  · rintro ⟨a, b, c, d⟩
    rw [looksLikeDate] at hdate
    simp [a, b, c, d] at hdate
  · intro hctx hx
    rw [looksLikeDate] at hdate
    rcases hx with ⟨a, b⟩ | ⟨a, b⟩ <;> simp [hctx, a, b] at hdate
  · rw [hs.1, hs.2]; exact hfil.1
  · rw [hs.2]; exact hfil.2
  · intro q raw2 s2 h2
    rw [processPercentMatch] at h2
    by_cases hq : 0 ≤ q ∧ q ≤ 100
    · rw [if_pos hq] at h2
      cases h2
      refine ⟨by simp; linarith [hq.2], by norm_num⟩
    · rw [if_neg hq] at h2
      exact Option.noConfusion h2
  · intro letter raw3
    refine ⟨?_, by simp [letterOnlyScore]⟩
    show letterToPercentage letter ≤ 200
    linarith [letterToPercentage_le letter]

/-! ## Claim C4: matcher scoring formula -/

/-- Date proximity exactly as the claim words it: 100 at zero days
difference, decaying linearly to 0 at the tolerance boundary, 0 beyond it.
Kept for comparison with the code, which divides by tolerance+1 and is
still positive at the boundary. -/
def specDateProximity (tol d : Nat) : ℚ :=
  if d ≤ tol then 100 * (1 - (d : ℚ) / (tol : ℚ)) else 0

/-- C4 counterexample: for a document dated exactly 7 days (the default
tolerance boundary) from the only candidate's due date, and no title or
course signal, the claim formula totals 0 while _score_match returns
3.75 — the code's decay divides by tolerance+1 and is 12.5, not 0, at the
boundary. -/
theorem C4_counterexample :
    (scoreMatch defaultMatcherConfig (fun _ _ => 0) ⟨[], [], []⟩ { date := some 0 }
        { id := 1, course_id := 1, name := "x", due_at := some 7, score := none }).1 = 15/4 ∧
    specDateProximity 7 7 = 0 ∧
    ((1/2 : ℚ) * 0 + (3/10) * specDateProximity 7 7 + (1/5) * 0 = 0) ∧
    (15/4 : ℚ) ≠ 0 := by
  refine ⟨by decide, ?_, ?_, by norm_num⟩
  · rw [specDateProximity]; norm_num
  · rw [specDateProximity]; norm_num

theorem titlePair_bounds (simFn : String → String → ℚ)
    (hsim : ∀ x y, 0 ≤ simFn x y ∧ simFn x y ≤ 1)
    (parsed : ParsedDoc) (a : Assignment) :
    0 ≤ (titlePair simFn parsed a).1 ∧ (titlePair simFn parsed a).1 ≤ 100 := by
  cases hT : parsed.title with
  | none => simp [titlePair, hT]
  | some t =>
      have h := hsim (lowerStr t) (lowerStr a.name)
      by_cases ht : t.isEmpty
      · simp [titlePair, hT, ht]
      · simp only [titlePair, hT, ht, Bool.false_eq_true, if_false]
        exact ⟨by nlinarith [h.1], by nlinarith [h.1, h.2]⟩

theorem datePair_bounds (tol : Nat) (parsed : ParsedDoc) (a : Assignment) :
    0 ≤ (datePair tol parsed a).1 ∧ (datePair tol parsed a).1 ≤ 100 := by
  cases hD : parsed.date with
  | none => simp [datePair, hD]
  | some d =>
      cases hDue : a.due_at with
      | none => simp [datePair, hD, hDue]
      | some due =>
          simp only [datePair, hD, hDue]
          by_cases h0 : (d - due).natAbs = 0
          · simp [h0]
          · by_cases h1 : (d - due).natAbs ≤ tol
            · simp only [h0, h1, if_true, if_false]
              have hpos : (0:ℚ) < (tol : ℚ) + 1 := by positivity
              have hc : ((d - due).natAbs : ℚ) ≤ (tol : ℚ) := by exact_mod_cast h1
              have hnn : (0:ℚ) ≤ ((d - due).natAbs : ℚ) := by positivity
              have hx1 : ((d - due).natAbs : ℚ) / ((tol : ℚ) + 1) ≤ 1 := by
                rw [div_le_one hpos]; linarith
              have hx0 : 0 ≤ ((d - due).natAbs : ℚ) / ((tol : ℚ) + 1) := by positivity
              constructor <;> nlinarith
            · simp [h0, h1]

theorem coursePair_bounds (simFn : String → String → ℚ)
    (hsim : ∀ x y, 0 ≤ simFn x y ∧ simFn x y ≤ 1)
    (dir : Directory) (parsed : ParsedDoc) (a : Assignment) :
    0 ≤ (coursePair simFn dir parsed a).1 ∧ (coursePair simFn dir parsed a).1 ≤ 100 := by
  cases hC : parsed.course_name with
  | none => simp [coursePair, hC]
  | some cn =>
      by_cases hc : cn.isEmpty
      · simp [coursePair, hC, hc]
      · cases hF : dir.courses.find? (fun c => c.id = a.course_id) with
        | none => simp [coursePair, hC, hc, hF]
        | some c =>
            have h := hsim (lowerStr cn) (lowerStr c.name)
            simp only [coursePair, hC, hc, hF, Bool.false_eq_true, if_false]
            exact ⟨by nlinarith [h.1], by nlinarith [h.1, h.2]⟩

/-- The score component of _score_match as a closed formula over the three
sub-scores. -/
theorem scoreMatch_fst (cfg : MatcherConfig) (simFn : String → String → ℚ)
    (dir : Directory) (parsed : ParsedDoc) (a : Assignment) :
    (scoreMatch cfg simFn dir parsed a).1 =
      (let T := (titlePair simFn parsed a).1
       let D := (datePair cfg.dateToleranceDays parsed a).1
       let C := (coursePair simFn dir parsed a).1
       let total := T * cfg.titleWeight + D * cfg.dateWeight + C * cfg.courseWeight
       if 2 ≤ [T, D, C].countP (fun s => 70 < s) then min (total + 10) 100 else total) := by
  rw [scoreMatch]
  by_cases hc : 2 ≤ [(titlePair simFn parsed a).1, (datePair cfg.dateToleranceDays parsed a).1,
      (coursePair simFn dir parsed a).1].countP (fun s => 70 < s) <;>
    simp [hc]

/-- The weighted total with the default weights stays within [0, 100]. -/
theorem scoreMatch_bounds (simFn : String → String → ℚ)
    (hsim : ∀ x y, 0 ≤ simFn x y ∧ simFn x y ≤ 1)
    (dir : Directory) (parsed : ParsedDoc) (a : Assignment) :
    0 ≤ (scoreMatch defaultMatcherConfig simFn dir parsed a).1 ∧
    (scoreMatch defaultMatcherConfig simFn dir parsed a).1 ≤ 100 := by
  have hT := titlePair_bounds simFn hsim parsed a
  have hD := datePair_bounds defaultMatcherConfig.dateToleranceDays parsed a
  have hC := coursePair_bounds simFn hsim dir parsed a
  rw [scoreMatch_fst]
  have hw : defaultMatcherConfig.titleWeight = 1/2 ∧ defaultMatcherConfig.dateWeight = 3/10 ∧
      defaultMatcherConfig.courseWeight = 1/5 := by
    refine ⟨rfl, rfl, rfl⟩
  rw [hw.1, hw.2.1, hw.2.2]
  dsimp only
  split
  · constructor
    · exact le_min (by nlinarith [hT.1, hD.1, hC.1]) (by norm_num)
    · exact min_le_right _ _
  · constructor <;> nlinarith [hT.1, hT.2, hD.1, hD.2, hC.1, hC.2]

/-- C4 (amended): the matcher score equals
0.5 x titleSimilarity + 0.3 x dateProximity + 0.2 x courseSimilarity with
each sub-score in [0, 100] and a +10 bonus capped at 100 exactly when at
least two sub-scores individually exceed 70 — where the code's
dateProximity is 100 at zero days difference and for d days within the
7-day tolerance equals 100 x (1 - d/8): a linear decay that reaches 0 one
day past the boundary (12.5 at d = 7), and 0 beyond the tolerance. -/
theorem C4_score_formula (simFn : String → String → ℚ)
    (hsim : ∀ x y, 0 ≤ simFn x y ∧ simFn x y ≤ 1)
    (dir : Directory) (parsed : ParsedDoc) (a : Assignment) :
    ((scoreMatch defaultMatcherConfig simFn dir parsed a).1 =
      (let T := (titlePair simFn parsed a).1
       let D := (datePair 7 parsed a).1
       let C := (coursePair simFn dir parsed a).1
       let total := T * (1/2) + D * (3/10) + C * (1/5)
       if 2 ≤ [T, D, C].countP (fun s => 70 < s) then min (total + 10) 100 else total)) ∧
    (0 ≤ (titlePair simFn parsed a).1 ∧ (titlePair simFn parsed a).1 ≤ 100) ∧
    (0 ≤ (datePair 7 parsed a).1 ∧ (datePair 7 parsed a).1 ≤ 100) ∧
    (0 ≤ (coursePair simFn dir parsed a).1 ∧ (coursePair simFn dir parsed a).1 ≤ 100) ∧
    (∀ (d due : Int), parsed.date = some d → a.due_at = some due →
      (datePair 7 parsed a).1 =
        (if (d - due).natAbs ≤ 7 then 100 * (1 - ((d - due).natAbs : ℚ) / 8) else 0)) := by
  refine ⟨?_, titlePair_bounds simFn hsim parsed a, datePair_bounds 7 parsed a,
    coursePair_bounds simFn hsim dir parsed a, ?_⟩
  · exact scoreMatch_fst defaultMatcherConfig simFn dir parsed a
  · intro d due hd hdue
    simp only [datePair, hd, hdue]
    by_cases h0 : (d - due).natAbs = 0
    · simp [h0]
    · by_cases h1 : (d - due).natAbs ≤ 7
      · simp only [h0, h1, if_true, if_false]
        norm_num
      · simp [h0, h1]

/-- The constant-zero stand-in for SequenceMatcher.ratio used by witnesses. -/
def simZero : String → String → ℚ := fun _ _ => 0

theorem simZero_range : ∀ x y, 0 ≤ simZero x y ∧ simZero x y ≤ 1 :=
  fun _ _ => ⟨le_refl 0, by simp [simZero]⟩

/-- Witness for C4 at a concrete input. -/
theorem C4_score_formula_witness :
    (∀ x y, 0 ≤ simZero x y ∧ simZero x y ≤ 1) ∧
    ((scoreMatch defaultMatcherConfig simZero (⟨[], [], []⟩ : Directory) { date := some 0 }
        { id := 1, course_id := 1, name := "x", due_at := some 7, score := none }).1 =
      (let T := (titlePair simZero { date := some 0 }
          { id := 1, course_id := 1, name := "x", due_at := some 7, score := none }).1
       let D := (datePair 7 { date := some 0 }
          { id := 1, course_id := 1, name := "x", due_at := some 7, score := none }).1
       let C := (coursePair simZero (⟨[], [], []⟩ : Directory) { date := some 0 }
          { id := 1, course_id := 1, name := "x", due_at := some 7, score := none }).1
       let total := T * (1/2) + D * (3/10) + C * (1/5)
       if 2 ≤ [T, D, C].countP (fun s => 70 < s) then min (total + 10) 100 else total)) :=
  ⟨simZero_range,
    (C4_score_formula simZero simZero_range ⟨[], [], []⟩ { date := some 0 }
      { id := 1, course_id := 1, name := "x", due_at := some 7, score := none }).1⟩

/-- Witness for C8 at a concrete emitted candidate. -/
theorem C8_score_candidate_filters_witness :
    processFractionMatch 42 50 "42/50" =
      some { earned := 42, possible := 50, percentage := 84,
             letter_grade := none, raw_text := "42/50" } ∧
    ¬((1:ℚ) ≤ 42 ∧ (42:ℚ) ≤ 12 ∧ (1:ℚ) ≤ 50 ∧ (50:ℚ) ≤ 31) :=
  ⟨by decide,
    (C8_score_candidate_filters 42 50 "42/50"
      { earned := 42, possible := 50, percentage := 84,
        letter_grade := none, raw_text := "42/50" } (by decide)).1⟩

/-! ## Claim C2: duplicate short-circuit -/

/-- C2: when the digest of the downloaded bytes is already present, the
run returns a duplicate result carrying the original row's id, performs no
OCR call, no parse, no detection and no match, and inserts nothing. -/
theorem C2_duplicate_short_circuit (env : PipelineEnv) (store : Store) (threshold : ℚ)
    (ex : DocRecord)
    (hdup : checkDuplicate store (env.hashFn env.bytes) = some ex) :
    processFileWithDetection env store threshold =
      (duplicateResult (env.hashFn env.bytes) ex, store, [Effect.download]) ∧
    (processFileWithDetection env store threshold).1.status = "duplicate" ∧
    (processFileWithDetection env store threshold).1.document_id = some ex.id ∧
    (processFileWithDetection env store threshold).1.ocr_result = none ∧
    (processFileWithDetection env store threshold).1.parsed = none ∧
    (processFileWithDetection env store threshold).1.mtch = none ∧
    (processFileWithDetection env store threshold).1.student_detection = none ∧
    (processFileWithDetection env store threshold).2.1 = store ∧
    Effect.ocrCall ∉ (processFileWithDetection env store threshold).2.2 ∧
    (∀ i, Effect.insertRow i ∉ (processFileWithDetection env store threshold).2.2) := by
  have hmain : processFileWithDetection env store threshold =
      (duplicateResult (env.hashFn env.bytes) ex, store, [Effect.download]) := by
    rw [processFileWithDetection]
    simp [hdup]
  rw [hmain]
  refine ⟨rfl, rfl, rfl, rfl, rfl, rfl, rfl, rfl, ?_, ?_⟩
  · show Effect.ocrCall ∉ [Effect.download]
    decide
  · intro i
    show Effect.insertRow i ∉ [Effect.download]
    simp

/-- An already-persisted row carrying the digest of raceEnv's bytes. -/
def dupDoc : DocRecord :=
  { id := 7, student_id := none, assignment_id := none, file_name := "orig.png",
    file_size := 3, mime_type := "image/png", source := "google_drive",
    ocr_text := "hello world", detected_title := none, detected_date := none,
    detected_score := none, detected_max_score := none, match_confidence := 0,
    match_method := "none", file_hash := some "h0", status := "pending",
    detection_confidence := 0, detection_method := "ambiguous",
    canvas_score := none, score_discrepancy := none }

/-- Witness for C2 on a one-row store holding the same digest. -/
theorem C2_duplicate_short_circuit_witness :
    checkDuplicate [dupDoc] (raceEnv.hashFn raceEnv.bytes) = some dupDoc ∧
    (processFileWithDetection raceEnv [dupDoc] 70).1.status = "duplicate" :=
  ⟨by decide, (C2_duplicate_short_circuit raceEnv [dupDoc] 70 dupDoc (by decide)).2.1⟩

/-! ## Claim C10: find_match refines find_matches -/

/-- C10: with a non-empty candidate set and a positive limit, find_match
returns exactly the first element of find_matches on the same arguments:
both rank the same candidates by the same score under the same stable tie
order. -/
theorem C10_find_match_is_head_of_find_matches (cfg : MatcherConfig)
    (simFn : String → String → ℚ) (dir : Directory) (today : Int)
    (parsed : ParsedDoc) (studentId : Nat) (courseId : Option Nat) (limit : Nat)
    (hne : getCandidates cfg dir today studentId courseId parsed.date ≠ [])
    (hlim : 0 < limit) :
    (findMatches cfg simFn dir today parsed studentId courseId limit).head? =
      some (findMatch cfg simFn dir today parsed studentId courseId) := by
  rw [findMatches, findMatch]
  set cands := getCandidates cfg dir today studentId courseId parsed.date with hcands
  rw [if_neg (by simpa using hne)]
  set f : Assignment → Assignment × ℚ × List String :=
    fun a => (a, scoreMatch cfg simFn dir parsed a) with hf
  set g : Assignment × ℚ × List String → MatchResult :=
    fun x => { assignment := some x.1, confidence := x.2.1,
               method := determineMethod x.2.2, reasons := x.2.2 } with hg
  have hmapsplit : (cands.map (fun a =>
      let sr := scoreMatch cfg simFn dir parsed a
      ({ assignment := some a, confidence := sr.1,
         method := determineMethod sr.2, reasons := sr.2 } : MatchResult))) =
      (cands.map f).map g := by
    rw [List.map_map]
    rfl
  rw [hmapsplit]
  rw [sortDescBy_map (fun x => x.2.1) (fun r => r.confidence) g (fun a => rfl)]
  have hsne : sortDescBy (fun x : Assignment × ℚ × List String => x.2.1) (cands.map f) ≠ [] := by
    intro hx
    have h1 := (sortDescBy_eq_nil _ _).mp hx
    rw [List.map_eq_nil_iff] at h1
    exact hne h1
  rcases hhd : (sortDescBy (fun x : Assignment × ℚ × List String => x.2.1)
      (cands.map f)).head? with _ | b
  · exact absurd (List.head?_eq_none_iff.mp hhd) hsne
  · rw [head?_take _ limit hlim, List.head?_map, hhd]
    dsimp only
    rw [hhd]
    rfl

/-- Witness for C10 at a concrete one-candidate directory. -/
theorem C10_find_match_witness :
    getCandidates defaultMatcherConfig
        ⟨[⟨1, "Ann Lee"⟩], [⟨4, 1, "Math", true⟩],
         [⟨9, 4, "Quiz 1", some 3, none⟩]⟩ 0 1 none (some 3) ≠ [] ∧
    (findMatches defaultMatcherConfig simZero
        ⟨[⟨1, "Ann Lee"⟩], [⟨4, 1, "Math", true⟩],
         [⟨9, 4, "Quiz 1", some 3, none⟩]⟩ 0 { date := some 3 } 1 none 5).head? =
      some (findMatch defaultMatcherConfig simZero
        ⟨[⟨1, "Ann Lee"⟩], [⟨4, 1, "Math", true⟩],
         [⟨9, 4, "Quiz 1", some 3, none⟩]⟩ 0 { date := some 3 } 1 none) :=
  ⟨by decide,
    C10_find_match_is_head_of_find_matches defaultMatcherConfig simZero
      ⟨[⟨1, "Ann Lee"⟩], [⟨4, 1, "Math", true⟩], [⟨9, 4, "Quiz 1", some 3, none⟩]⟩
      0 { date := some 3 } 1 none 5 (by decide) (by decide)⟩

/-! ## Claim C1: digest uniqueness under a write race -/

/-- Store and results produced when two instances race: both pass the
duplicate check against the empty store, then both commit. -/
def rStore1 : Store := (commitPhase raceEnv 70 [] "h0").2.1

/-- First racer's result. -/
def rRes1 : ProcResult := (commitPhase raceEnv 70 [] "h0").1

/-- Store after the second racer also commits. -/
def rStore2 : Store := (commitPhase raceEnv 70 rStore1 "h0").2.1

/-- Second racer's result. -/
def rRes2 : ProcResult := (commitPhase raceEnv 70 rStore1 "h0").1

/-- C1 is violated by the code: because scanned_documents has no unique
constraint on file_hash (models.py line 143; migration b3d9e6f42c8a builds
a non-unique index) and _save_to_database_with_detection commits without
conflict handling, an interleaving of two pipeline instances on
byte-identical content is reachable in which both duplicate checks pass
and both inserts succeed: the final table holds two distinct rows with the
same digest, and the loser's outcome is "pending", not "duplicate". -/
theorem C1_race_inserts_second_row :
    RaceReach raceEnv 70 ([], PPhase.start, PPhase.start)
      (rStore2, PPhase.done rRes1, PPhase.done rRes2) ∧
    rStore2.map (fun r => r.file_hash) = [some "h0", some "h0"] ∧
    rStore2.length = 2 ∧
    ((rStore2.get? 0).map (fun r => r.id) ≠ (rStore2.get? 1).map (fun r => r.id)) ∧
    ((rStore2.get? 0).map (fun r => r.file_hash) =
      (rStore2.get? 1).map (fun r => r.file_hash)) ∧
    rRes2.status = "pending" ∧ rRes2.status ≠ "duplicate" := by
  refine ⟨?_, by decide, by decide, by decide, by decide, by decide, by decide⟩
  have e1 : procStep raceEnv 70 ([], PPhase.start) = ([], PPhase.ready "h0") := by decide
  have s1 : RaceStep raceEnv 70 ([], PPhase.start, PPhase.start)
      ([], PPhase.ready "h0", PPhase.start) := by
    have h := @RaceStep.left raceEnv 70 [] PPhase.start PPhase.start
    rw [e1] at h
    exact h
  have s2 : RaceStep raceEnv 70 ([], PPhase.ready "h0", PPhase.start)
      ([], PPhase.ready "h0", PPhase.ready "h0") := by
    have h := @RaceStep.right raceEnv 70 []
      (PPhase.ready "h0") PPhase.start
    rw [e1] at h
    exact h
  have s3 : RaceStep raceEnv 70 ([], PPhase.ready "h0", PPhase.ready "h0")
      (rStore1, PPhase.done rRes1, PPhase.ready "h0") :=
    @RaceStep.left raceEnv 70 [] (PPhase.ready "h0") (PPhase.ready "h0")
  have s4 : RaceStep raceEnv 70 (rStore1, PPhase.done rRes1, PPhase.ready "h0")
      (rStore2, PPhase.done rRes1, PPhase.done rRes2) :=
    @RaceStep.right raceEnv 70 rStore1
      (PPhase.done rRes1) (PPhase.ready "h0")
  exact Relation.ReflTransGen.head s1 (Relation.ReflTransGen.head s2
    (Relation.ReflTransGen.head s3 (Relation.ReflTransGen.head s4 Relation.ReflTransGen.refl)))

/-! ## Detector invariants -/

theorem isConfident_ge (r : StudentDetection) (h : isConfident r = true) :
    70 ≤ r.confidence ∧ r.student.isSome = true := by
  rw [isConfident] at h
  simp at h
  exact h

theorem isConfident_of (r : StudentDetection) (h1 : 70 ≤ r.confidence)
    (h2 : r.student.isSome = true) : isConfident r = true := by
  rw [isConfident]
  simp [h1, h2]

theorem detectFromQr_cases (dir : Directory) (qd : QrData) :
    (detectFromQr dir qd).student.isSome = false ∨
      (detectFromQr dir qd).confidence = 100 := by
  rw [detectFromQr]
  cases qd.student_id with
  | none => left; rfl
  | some sid =>
      dsimp only
      by_cases h0 : sid ≠ 0
      · rw [if_pos h0]
        cases dir.students.find? (fun s => decide (s.id = sid)) with
        | none => left; rfl
        | some s => right; rfl
      · rw [if_neg h0]
        left; rfl

theorem detectFromQr_resolved (dir : Directory) (qd : QrData)
    (h : (detectFromQr dir qd).student.isSome = true) :
    (detectFromQr dir qd).confidence = 100 := by
  rcases detectFromQr_cases dir qd with hx | hx
  · rw [h] at hx; exact Bool.noConfusion hx
  · exact hx

theorem detectStage5_resolved (dir : Directory) (simFn : String → String → ℚ)
    (today : Int) (parsed : ParsedDoc) (rs : List String)
    (h : (detectStage5 dir simFn today parsed rs).student.isSome = true) :
    70 ≤ (detectStage5 dir simFn today parsed rs).confidence := by
  rw [detectStage5] at h ⊢
  cases hT : parsed.title with
  | none => simp [hT, detectAmbiguous] at h
  | some t =>
      simp only [hT] at h ⊢
      by_cases ht : t.isEmpty
      · simp only [ht, if_true] at h
        simp [detectAmbiguous] at h
      · simp only [ht, Bool.false_eq_true, if_false] at h ⊢
        by_cases hc : isConfident (detectFromAssignment dir simFn today t parsed.date) = true
        · simp only [hc, if_true] at h ⊢
          exact (isConfident_ge _ hc).1
        · simp only [hc, if_false] at h
          simp [detectAmbiguous] at h

theorem detectStage4_resolved (dir : Directory) (simFn : String → String → ℚ)
    (today : Int) (parsed : ParsedDoc) (rs : List String)
    (h : (detectStage4 dir simFn today parsed rs).student.isSome = true) :
    70 ≤ (detectStage4 dir simFn today parsed rs).confidence := by
  rw [detectStage4] at h ⊢
  cases hC : parsed.course_name with
  | none =>
      simp only [hC] at h ⊢
      exact detectStage5_resolved dir simFn today parsed rs h
  | some cn =>
      simp only [hC] at h ⊢
      by_cases hc0 : cn.isEmpty
      · simp only [hc0, if_true] at h ⊢
        exact detectStage5_resolved dir simFn today parsed rs h
      · simp only [hc0, Bool.false_eq_true, if_false] at h ⊢
        by_cases hc : isConfident (detectFromCourse dir simFn cn) = true
        · simp only [hc, if_true] at h ⊢
          exact (isConfident_ge _ hc).1
        · simp only [hc, if_false] at h ⊢
          exact detectStage5_resolved dir simFn today parsed _ h

theorem detectStage3_resolved (dir : Directory) (simFn : String → String → ℚ)
    (today : Int) (parsed : ParsedDoc) (rs : List String)
    (h : (detectStage3 dir simFn today parsed rs).student.isSome = true) :
    70 ≤ (detectStage3 dir simFn today parsed rs).confidence := by
  rw [detectStage3] at h ⊢
  cases hN : parsed.student_name with
  | none =>
      simp only [hN] at h ⊢
      exact detectStage4_resolved dir simFn today parsed rs h
  | some n =>
      simp only [hN] at h ⊢
      by_cases hn0 : n.isEmpty
      · simp only [hn0, if_true] at h ⊢
        exact detectStage4_resolved dir simFn today parsed rs h
      · simp only [hn0, Bool.false_eq_true, if_false] at h ⊢
        by_cases hc : isConfident (detectFromName dir simFn n) = true
        · simp only [hc, if_true] at h ⊢
          exact (isConfident_ge _ hc).1
        · simp only [hc, if_false] at h ⊢
          exact detectStage4_resolved dir simFn today parsed _ h

theorem detectAfterQr_resolved (dir : Directory) (simFn : String → String → ℚ)
    (today : Int) (parsed : ParsedDoc) (rawText : Option String)
    (h : (detectAfterQr dir simFn today parsed rawText).student.isSome = true) :
    70 ≤ (detectAfterQr dir simFn today parsed rawText).confidence := by
  unfold detectAfterQr at h ⊢
  set t := (match rawText with
    | some t => if t.isEmpty then parsed.raw_text else t
    | none => parsed.raw_text) with ht
  by_cases h0 : t.isEmpty
  · simp only [h0, if_true] at h ⊢
    exact detectStage3_resolved dir simFn today parsed [] h
  · simp only [h0, Bool.false_eq_true, if_false] at h ⊢
    by_cases hc : isConfident (detectFromCoverSheet dir.students t) = true
    · simp only [hc, if_true] at h ⊢
      exact (isConfident_ge _ hc).1
    · simp only [hc, if_false] at h ⊢
      exact detectStage3_resolved dir simFn today parsed _ h

/-- Invariant of the cascade: whenever detect resolves a student, the
confidence is at least 70 (every stage result is gated on is_confident
except the QR stage, which yields 100). -/
theorem detect_resolved_ge70 (dir : Directory) (simFn : String → String → ℚ)
    (today : Int) (parsed : ParsedDoc) (qrData : Option QrData)
    (rawText : Option String)
    (h : (detect dir simFn today parsed qrData rawText).student.isSome = true) :
    70 ≤ (detect dir simFn today parsed qrData rawText).confidence := by
  unfold detect at h ⊢
  cases hq : qrData with
  | some qd =>
      simp only [hq] at h ⊢
      by_cases hqr : (detectFromQr dir qd).student.isSome = true
      · simp only [hqr, if_true] at h ⊢
        rw [detectFromQr_resolved dir qd hqr]
        norm_num
      · simp only [hqr, Bool.false_eq_true, if_false] at h ⊢
        exact detectAfterQr_resolved dir simFn today parsed rawText h
  | none =>
      simp only [hq] at h ⊢
      exact detectAfterQr_resolved dir simFn today parsed rawText h

/-! ## Claim C3: lifecycle status rule -/

theorem buildDoc_status (env : PipelineEnv) (parsed : ParsedDoc)
    (mtch : Option MatchResult) (det : StudentDetection) (studentId : Option Nat)
    (status : String) (h : String) (newId : Nat) (ocrText : String) :
    (buildDoc env parsed mtch det studentId status h newId ocrText).status = status := by
  unfold buildDoc
  rcases mtch with _ | m
  · rfl
  · rcases m with ⟨massign, mconf, mmeth, mreas⟩
    rcases massign with _ | a
    · rfl
    · rcases ha : a.score with _ | cs
      · simp only [ha]
      · simp only [ha]
        rcases hp : parsed.score with _ | ps
        · simp only [hp]
        · simp only [hp]
          by_cases he : ps.earned ≠ 0 <;> simp [he]

/-- C3: for a non-duplicate file whose OCR succeeds, the run's status (and
the status of the row it inserts) is "processed" exactly when the detector
resolved a student with confidence at or above the threshold, and
"pending" otherwise. The extra fixed 70 bound the code also checks is
subsumed: detect never resolves a student below confidence 70. -/
theorem C3_status_rule (env : PipelineEnv) (store : Store) (threshold : ℚ)
    (hnodup : checkDuplicate store (env.hashFn env.bytes) = none)
    (hocr : (env.ocrFn env.bytes).success = true) :
    ((processFileWithDetection env store threshold).1.status = "processed" ↔
      ((detect env.dir env.simFn env.today
          (env.parseFn (env.ocrFn env.bytes).fullText) none none).student.isSome = true ∧
        threshold ≤ (detect env.dir env.simFn env.today
          (env.parseFn (env.ocrFn env.bytes).fullText) none none).confidence)) ∧
    ((processFileWithDetection env store threshold).1.status = "pending" ↔
      ¬((detect env.dir env.simFn env.today
          (env.parseFn (env.ocrFn env.bytes).fullText) none none).student.isSome = true ∧
        threshold ≤ (detect env.dir env.simFn env.today
          (env.parseFn (env.ocrFn env.bytes).fullText) none none).confidence)) ∧
    (∃ doc : DocRecord, (processFileWithDetection env store threshold).2.1 = store ++ [doc] ∧
      doc.status = (processFileWithDetection env store threshold).1.status) := by
  set det := detect env.dir env.simFn env.today
    (env.parseFn (env.ocrFn env.bytes).fullText) none none with hdet
  have hmain : processFileWithDetection env store threshold =
      ((commitPhase env threshold store (env.hashFn env.bytes)).1,
        (commitPhase env threshold store (env.hashFn env.bytes)).2.1,
        Effect.download :: (commitPhase env threshold store (env.hashFn env.bytes)).2.2) := by
    rw [processFileWithDetection]
    simp [hnodup]
  have hocr' : ((env.ocrFn env.bytes).success = false) = False := by
    simp [hocr]
  rw [hmain]
  rw [commitPhase]
  simp only [hocr', if_false]
  by_cases hc : (isConfident det && decide (threshold ≤ det.confidence)) = true
  · rw [← hdet]
    simp only [hc, if_true]
    have hg := isConfident_ge det (by
      rcases Bool.and_eq_true_iff.mp hc with ⟨h1, _⟩
      exact h1)
    have hth : threshold ≤ det.confidence := by
      rcases Bool.and_eq_true_iff.mp hc with ⟨_, h2⟩
      exact of_decide_eq_true h2
    refine ⟨?_, ?_, ?_⟩
    · simp [hg.2, hth]
    · constructor
      · intro hx
        exact absurd hx (by decide)
      · intro hx
        exact absurd ⟨hg.2, hth⟩ hx
    · exact ⟨_, rfl, buildDoc_status _ _ _ _ _ _ _ _ _⟩
  · rw [← hdet]
    simp only [hc, if_false]
    have hnot : ¬(det.student.isSome = true ∧ threshold ≤ det.confidence) := by
      intro ⟨h1, h2⟩
      have h70 : 70 ≤ det.confidence := detect_resolved_ge70 _ _ _ _ _ _ h1
      have : (isConfident det && decide (threshold ≤ det.confidence)) = true := by
        rw [isConfident_of det h70 h1]
        simp [h2]
      exact hc this
    refine ⟨?_, ?_, ?_⟩
    · constructor
      · intro hx
        exact absurd hx (by decide)
      · intro hx
        exact absurd hx hnot
    · simp [hnot]
    · exact ⟨_, rfl, buildDoc_status _ _ _ _ _ _ _ _ _⟩

/-- Witness for C3 on a concrete non-duplicate run with successful OCR and
no identifiable student: the status is pending. -/
theorem C3_status_rule_witness :
    checkDuplicate [] (raceEnv.hashFn raceEnv.bytes) = none ∧
    ((processFileWithDetection raceEnv [] 70).1.status = "processed" ↔
      ((detect raceEnv.dir raceEnv.simFn raceEnv.today
          (raceEnv.parseFn (raceEnv.ocrFn raceEnv.bytes).fullText) none none).student.isSome = true ∧
        (70:ℚ) ≤ (detect raceEnv.dir raceEnv.simFn raceEnv.today
          (raceEnv.parseFn (raceEnv.ocrFn raceEnv.bytes).fullText) none none).confidence)) :=
  ⟨rfl, (C3_status_rule raceEnv [] 70 rfl rfl).1⟩

/-! ## Claim C7: confidence ranges -/

theorem calcScoreConfidence_range (score : ParsedScore) (ctxFound : Bool) :
    0 ≤ calcScoreConfidence score ctxFound ∧ calcScoreConfidence score ctxFound ≤ 100 := by
  rw [calcScoreConfidence]
  split_ifs <;> constructor <;> norm_num

theorem calcDateConfidence_range (daysDiff : Nat) (kwFound : Bool) :
    0 ≤ calcDateConfidence daysDiff kwFound ∧ calcDateConfidence daysDiff kwFound ≤ 100 := by
  rw [calcDateConfidence]
  split_ifs <;> constructor <;> norm_num

theorem calcTitleConfidence_range (title text : String) :
    0 ≤ calcTitleConfidence title text ∧ calcTitleConfidence title text ≤ 100 := by
  rw [calcTitleConfidence]
  split_ifs <;> constructor <;> norm_num

theorem detectFromQr_range (dir : Directory) (qd : QrData) :
    0 ≤ (detectFromQr dir qd).confidence ∧ (detectFromQr dir qd).confidence ≤ 100 := by
  rw [detectFromQr]
  cases qd.student_id with
  | none => norm_num
  | some sid =>
      dsimp only
      by_cases h0 : sid ≠ 0
      · rw [if_pos h0]
        cases dir.students.find? (fun s => decide (s.id = sid)) with
        | none => norm_num
        | some s => norm_num
      · rw [if_neg h0]
        norm_num

theorem detectFromCoverSheet_range (students : List Student) (text : String) :
    0 ≤ (detectFromCoverSheet students text).confidence ∧
    (detectFromCoverSheet students text).confidence ≤ 100 := by
  rw [detectFromCoverSheet]
  dsimp only
  cases (students.foldl (coverStudentStep _ _)
      { bestMatch := none, bestPos := none, foundAtEnd := false }).bestMatch with
  | none => norm_num
  | some s =>
      dsimp only
      split_ifs <;> norm_num

theorem nameStep_range (simFn : String → String → ℚ)
    (hsim : ∀ x y, 0 ≤ simFn x y ∧ simFn x y ≤ 1)
    (nameL : String) (parts : List (List Char))
    (st : Option Student × ℚ × List String) (s : Student)
    (h0 : 0 ≤ st.2.1) (h1 : st.2.1 ≤ 100) :
    0 ≤ (nameStep simFn nameL parts st s).2.1 ∧
    (nameStep simFn nameL parts st s).2.1 ≤ 100 := by
  have hsim' := hsim nameL (lowerStr s.name)
  have hfc0 : (0:ℚ) ≤ ((Rat.floor (simFn nameL (lowerStr s.name) * 100) : ℤ) : ℚ) := by
    exact_mod_cast ratFloor_nonneg _ (by nlinarith [hsim'.1])
  have hfc1 : ((Rat.floor (simFn nameL (lowerStr s.name) * 100) : ℤ) : ℚ) ≤ 100 := by
    have := ratFloor_le (simFn nameL (lowerStr s.name) * 100) 100
      (by push_cast; nlinarith [hsim'.1, hsim'.2])
    exact_mod_cast this
  rw [nameStep]
  dsimp only
  split_ifs <;>
    refine ⟨?_, ?_⟩ <;>
    first
      | exact h0
      | exact h1
      | exact hfc0
      | exact hfc1
      | norm_num

theorem detectFromNameLoop_range (simFn : String → String → ℚ)
    (hsim : ∀ x y, 0 ≤ simFn x y ∧ simFn x y ≤ 1)
    (nameL : String) (parts : List (List Char)) :
    ∀ (students : List Student) (best : Option Student) (conf : ℚ) (reasons : List String),
      0 ≤ conf → conf ≤ 100 →
      0 ≤ (detectFromNameLoop simFn nameL parts students best conf reasons).confidence ∧
      (detectFromNameLoop simFn nameL parts students best conf reasons).confidence ≤ 100 := by
  intro students
  induction students with
  | nil =>
      intro best conf reasons h0 h1
      simp only [detectFromNameLoop]
      cases best with
      | some s =>
          dsimp only
          split_ifs <;> exact ⟨h0, h1⟩
      | none => exact ⟨h0, h1⟩
  | cons s rest ih =>
      intro best conf reasons h0 h1
      simp only [detectFromNameLoop]
      by_cases he : nameL = lowerStr s.name
      · rw [if_pos he]
        norm_num
      · rw [if_neg he]
        have hstep := nameStep_range simFn hsim nameL parts (best, conf, reasons) s h0 h1
        exact ih _ _ _ hstep.1 hstep.2

theorem detectFromName_range (dir : Directory) (simFn : String → String → ℚ)
    (hsim : ∀ x y, 0 ≤ simFn x y ∧ simFn x y ≤ 1) (name : String) :
    0 ≤ (detectFromName dir simFn name).confidence ∧
    (detectFromName dir simFn name).confidence ≤ 100 := by
  rw [detectFromName]
  exact detectFromNameLoop_range simFn hsim _ _ dir.students none 0 []
    (le_refl 0) (by norm_num)

theorem detectFromCourse_range (dir : Directory) (simFn : String → String → ℚ)
    (courseName : String) :
    0 ≤ (detectFromCourse dir simFn courseName).confidence ∧
    (detectFromCourse dir simFn courseName).confidence ≤ 100 := by
  rw [detectFromCourse]
  rcases dir.students.filterMap _ with _ | ⟨⟨s, c⟩, _ | rest⟩ <;> norm_num

theorem assignFold_range (dir : Directory) (simFn : String → String → ℚ)
    (hsim : ∀ x y, 0 ≤ simFn x y ∧ simFn x y ≤ 1) (titleL : String) :
    ∀ (l : List Assignment) (st : ℚ × Option Assignment × Option Student),
      0 ≤ st.1 → st.1 ≤ 1 →
      0 ≤ (l.foldl (assignLoopStep dir simFn titleL) st).1 ∧
      (l.foldl (assignLoopStep dir simFn titleL) st).1 ≤ 1 := by
  intro l
  induction l with
  | nil => intro st h0 h1; exact ⟨h0, h1⟩
  | cons a rest ih =>
      intro st h0 h1
      rw [List.foldl_cons]
      have hsim' := hsim titleL (lowerStr a.name)
      rw [assignLoopStep]
      by_cases hlt : st.1 < simFn titleL (lowerStr a.name)
      · rw [if_pos hlt]
        exact ih _ hsim'.1 hsim'.2
      · rw [if_neg hlt]
        exact ih _ h0 h1

theorem detectFromAssignment_range (dir : Directory) (simFn : String → String → ℚ)
    (hsim : ∀ x y, 0 ≤ simFn x y ∧ simFn x y ≤ 1)
    (today : Int) (title : String) (date : Option Int) :
    0 ≤ (detectFromAssignment dir simFn today title date).confidence ∧
    (detectFromAssignment dir simFn today title date).confidence ≤ 100 := by
  rw [detectFromAssignment]
  have hfold := assignFold_range dir simFn hsim (stripStr (lowerStr title))
    (assignCandidates dir today date) (0, none, none) (le_refl 0) (by norm_num)
  set final := (assignCandidates dir today date).foldl
    (assignLoopStep dir simFn (stripStr (lowerStr title))) (0, none, none) with hfinal
  cases final.2.2 with
  | none => norm_num
  | some s =>
      dsimp only
      split_ifs
      · dsimp only
        constructor
        · exact_mod_cast ratFloor_nonneg _ (by nlinarith [hfold.1])
        · have : Rat.floor (final.1 * 75) ≤ (100 : ℤ) := by
            apply ratFloor_le
            push_cast
            nlinarith [hfold.1, hfold.2]
          exact_mod_cast this
      · norm_num

theorem detectAmbiguous_range (rs : List String) :
    0 ≤ (detectAmbiguous rs).confidence ∧ (detectAmbiguous rs).confidence ≤ 100 := by
  rw [detectAmbiguous]
  norm_num

theorem detectStage5_range (dir : Directory) (simFn : String → String → ℚ)
    (hsim : ∀ x y, 0 ≤ simFn x y ∧ simFn x y ≤ 1)
    (today : Int) (parsed : ParsedDoc) (rs : List String) :
    0 ≤ (detectStage5 dir simFn today parsed rs).confidence ∧
    (detectStage5 dir simFn today parsed rs).confidence ≤ 100 := by
  rw [detectStage5]
  cases parsed.title with
  | none => exact detectAmbiguous_range rs
  | some t =>
      dsimp only
      split_ifs
      · exact detectAmbiguous_range rs
      · exact detectFromAssignment_range dir simFn hsim today t parsed.date
      · exact detectAmbiguous_range _

theorem detectStage4_range (dir : Directory) (simFn : String → String → ℚ)
    (hsim : ∀ x y, 0 ≤ simFn x y ∧ simFn x y ≤ 1)
    (today : Int) (parsed : ParsedDoc) (rs : List String) :
    0 ≤ (detectStage4 dir simFn today parsed rs).confidence ∧
    (detectStage4 dir simFn today parsed rs).confidence ≤ 100 := by
  rw [detectStage4]
  cases parsed.course_name with
  | none => exact detectStage5_range dir simFn hsim today parsed rs
  | some cn =>
      dsimp only
      split_ifs
      · exact detectStage5_range dir simFn hsim today parsed rs
      · exact detectFromCourse_range dir simFn cn
      · exact detectStage5_range dir simFn hsim today parsed _

theorem detectStage3_range (dir : Directory) (simFn : String → String → ℚ)
    (hsim : ∀ x y, 0 ≤ simFn x y ∧ simFn x y ≤ 1)
    (today : Int) (parsed : ParsedDoc) (rs : List String) :
    0 ≤ (detectStage3 dir simFn today parsed rs).confidence ∧
    (detectStage3 dir simFn today parsed rs).confidence ≤ 100 := by
  rw [detectStage3]
  cases parsed.student_name with
  | none => exact detectStage4_range dir simFn hsim today parsed rs
  | some n =>
      dsimp only
      split_ifs
      · exact detectStage4_range dir simFn hsim today parsed rs
      · exact detectFromName_range dir simFn hsim n
      · exact detectStage4_range dir simFn hsim today parsed _

theorem detectAfterQr_range (dir : Directory) (simFn : String → String → ℚ)
    (hsim : ∀ x y, 0 ≤ simFn x y ∧ simFn x y ≤ 1)
    (today : Int) (parsed : ParsedDoc) (rawText : Option String) :
    0 ≤ (detectAfterQr dir simFn today parsed rawText).confidence ∧
    (detectAfterQr dir simFn today parsed rawText).confidence ≤ 100 := by
  unfold detectAfterQr
  set t := (match rawText with
    | some t => if t.isEmpty then parsed.raw_text else t
    | none => parsed.raw_text) with ht
  by_cases h0 : t.isEmpty
  · simp only [h0, if_true]
    exact detectStage3_range dir simFn hsim today parsed []
  · simp only [h0, Bool.false_eq_true, if_false]
    by_cases hc : isConfident (detectFromCoverSheet dir.students t) = true
    · simp only [hc, if_true]
      exact detectFromCoverSheet_range dir.students t
    · simp only [hc, if_false]
      exact detectStage3_range dir simFn hsim today parsed _

theorem detect_range (dir : Directory) (simFn : String → String → ℚ)
    (hsim : ∀ x y, 0 ≤ simFn x y ∧ simFn x y ≤ 1)
    (today : Int) (parsed : ParsedDoc) (qrData : Option QrData)
    (rawText : Option String) :
    0 ≤ (detect dir simFn today parsed qrData rawText).confidence ∧
    (detect dir simFn today parsed qrData rawText).confidence ≤ 100 := by
  unfold detect
  cases qrData with
  | none => exact detectAfterQr_range dir simFn hsim today parsed rawText
  | some qd =>
      dsimp only
      split_ifs
      · exact detectFromQr_range dir qd
      · exact detectAfterQr_range dir simFn hsim today parsed rawText

theorem findMatch_range (cfg : MatcherConfig)
    (hcfg : cfg = defaultMatcherConfig) (simFn : String → String → ℚ)
    (hsim : ∀ x y, 0 ≤ simFn x y ∧ simFn x y ≤ 1)
    (dir : Directory) (today : Int) (parsed : ParsedDoc)
    (studentId : Nat) (courseId : Option Nat) :
    0 ≤ (findMatch cfg simFn dir today parsed studentId courseId).confidence ∧
    (findMatch cfg simFn dir today parsed studentId courseId).confidence ≤ 100 := by
  subst hcfg
  rw [findMatch]
  dsimp only
  split_ifs
  · norm_num
  · rcases hhd : (sortDescBy _ _).head? with _ | b
    · norm_num
    · dsimp only
      have hmem := (sortDescBy_head_max _ _ _ hhd).1
      rcases List.mem_map.mp hmem with ⟨a, _, rfl⟩
      exact scoreMatch_bounds simFn hsim dir parsed a

/-- C7: every confidence the components produce lies in [0, 100] — the
parser field confidences, the student-detection confidence, and the
assignment-match confidence of the matcher as the orchestrator constructs
it (default weights). -/
theorem C7_confidence_ranges (simFn : String → String → ℚ)
    (hsim : ∀ x y, 0 ≤ simFn x y ∧ simFn x y ≤ 1)
    (dir : Directory) (today : Int) (parsed : ParsedDoc) (qrData : Option QrData)
    (rawText : Option String) (score : ParsedScore) (ctxFound kwFound : Bool)
    (daysDiff : Nat) (title text : String) (studentId : Nat) (courseId : Option Nat) :
    (0 ≤ calcScoreConfidence score ctxFound ∧ calcScoreConfidence score ctxFound ≤ 100) ∧
    (0 ≤ calcDateConfidence daysDiff kwFound ∧ calcDateConfidence daysDiff kwFound ≤ 100) ∧
    (0 ≤ calcTitleConfidence title text ∧ calcTitleConfidence title text ≤ 100) ∧
    (0 ≤ (detect dir simFn today parsed qrData rawText).confidence ∧
      (detect dir simFn today parsed qrData rawText).confidence ≤ 100) ∧
    (0 ≤ (findMatch defaultMatcherConfig simFn dir today parsed studentId courseId).confidence ∧
      (findMatch defaultMatcherConfig simFn dir today parsed studentId courseId).confidence ≤ 100) :=
  ⟨calcScoreConfidence_range score ctxFound,
   calcDateConfidence_range daysDiff kwFound,
   calcTitleConfidence_range title text,
   detect_range dir simFn hsim today parsed qrData rawText,
   findMatch_range defaultMatcherConfig rfl simFn hsim dir today parsed studentId courseId⟩

/-- Witness for C7 at concrete inputs. -/
theorem C7_confidence_ranges_witness :
    (∀ x y, 0 ≤ simZero x y ∧ simZero x y ≤ 1) ∧
    (0 ≤ (detect (⟨[], [], []⟩ : Directory) simZero 0 { raw_text := "hi" } none none).confidence ∧
      (detect (⟨[], [], []⟩ : Directory) simZero 0 { raw_text := "hi" } none none).confidence ≤ 100) :=
  ⟨simZero_range,
    (C7_confidence_ranges simZero simZero_range ⟨[], [], []⟩ 0 { raw_text := "hi" }
      none none ⟨0, 0, 0, none, ""⟩ false false 0 "t" "x" 1 none).2.2.2.1⟩

/-! ## Claim C5: exact title and date match -/

theorem containsSub_append_left (p l m : List Char) (h : containsSub p m = true) :
    containsSub p (l ++ m) = true := by
  induction l with
  | nil => simpa using h
  | cons c rest ih =>
      rw [List.cons_append]
      rw [containsSub] at ih ⊢
      simp only [findSub]
      by_cases hp : p.isPrefixOf (c :: (rest ++ m)) = true
      · simp [hp]
      · simp only [hp, Bool.false_eq_true, if_false]
        rcases hf : findSub p (rest ++ m) with _ | n
        · rw [hf] at ih
          exact absurd ih (by simp)
        · simp [hf]

/-- Any reason string built from a prefix whose lowercase form starts with
the pattern contains the pattern case-insensitively. -/
theorem hasSub_of_lower_pieces (p : String) (l : List Char) (z : List Char)
    (hp : p.toList.isPrefixOf (l.map Char.toLower) = true) :
    containsSub p.toList ((l ++ z).map Char.toLower) = true := by
  rw [List.map_append]
  exact containsSub_of_isPrefixOf _ _ (isPrefixOf_append _ _ _ hp)

theorem hasSub_title_reason1 (x y : String) :
    hasSub (lowerStr ("Title match: " ++ x ++ y)) "title" = true := by
  rw [hasSub, lowerStr]
  show containsSub "title".toList ((("Title match: " ++ x ++ y)).data.map Char.toLower) = true
  have hd : ("Title match: " ++ x ++ y).data = "Title match: ".data ++ (x.data ++ y.data) := by
    show ("Title match: ".data ++ x.data) ++ y.data = _
    rw [List.append_assoc]
  rw [hd]
  exact hasSub_of_lower_pieces "title" "Title match: ".data (x.data ++ y.data) (by decide)

theorem hasSub_title_reason2 (x y : String) :
    hasSub (lowerStr ("Partial title match: " ++ x ++ y)) "title" = true := by
  rw [hasSub, lowerStr]
  show containsSub "title".toList ((("Partial title match: " ++ x ++ y)).data.map Char.toLower) = true
  have hd : ("Partial title match: " ++ x ++ y).data =
      "Partial title match: ".data ++ (x.data ++ y.data) := by
    show ("Partial title match: ".data ++ x.data) ++ y.data = _
    rw [List.append_assoc]
  rw [hd]
  have hp : "title".toList.isPrefixOf
      (("Partial title match: ".data).map Char.toLower) = false := by decide
  rw [List.map_append]
  -- the pattern occurs at offset 8 of the first piece; containment through
  -- the first piece extended by anything
  have : containsSub "title".toList (("Partial title match: ".data).map Char.toLower ++
      (x.data ++ y.data).map Char.toLower) = true := by
    have hinf : "title".toList.isPrefixOf
        (List.drop 8 (("Partial title match: ".data).map Char.toLower)) = true := by decide
    have hsplit : ("Partial title match: ".data).map Char.toLower ++
        (x.data ++ y.data).map Char.toLower =
        List.take 8 (("Partial title match: ".data).map Char.toLower) ++
          (List.drop 8 (("Partial title match: ".data).map Char.toLower) ++
            (x.data ++ y.data).map Char.toLower) := by
      rw [← List.append_assoc, List.take_append_drop]
    rw [hsplit]
    exact containsSub_append_left _ _ _
      (containsSub_of_isPrefixOf _ _ (isPrefixOf_append _ _ _ hinf))
  exact this

theorem hasSub_date_reason1 :
    hasSub (lowerStr "Exact date match") "date" = true := by decide

theorem hasSub_date_reason2 (x y : String) :
    hasSub (lowerStr ("Date within " ++ x ++ y)) "date" = true := by
  rw [hasSub, lowerStr]
  show containsSub "date".toList ((("Date within " ++ x ++ y)).data.map Char.toLower) = true
  have hd : ("Date within " ++ x ++ y).data = "Date within ".data ++ (x.data ++ y.data) := by
    show ("Date within ".data ++ x.data) ++ y.data = _
    rw [List.append_assoc]
  rw [hd]
  exact hasSub_of_lower_pieces "date" "Date within ".data (x.data ++ y.data) (by decide)

/-- The title reasons are empty only when the title sub-score is at most
50, and every title reason mentions "title". -/
theorem titlePair_snd (simFn : String → String → ℚ) (parsed : ParsedDoc) (a : Assignment) :
    ((titlePair simFn parsed a).2 = [] → (titlePair simFn parsed a).1 ≤ 50) ∧
    (∀ r ∈ (titlePair simFn parsed a).2, hasSub (lowerStr r) "title" = true) := by
  rw [titlePair]
  cases parsed.title with
  | none => exact ⟨fun _ => by norm_num, fun r hr => absurd hr (by simp)⟩
  | some t =>
      dsimp only
      by_cases ht : t.isEmpty
      · simp only [ht, if_true]
        exact ⟨fun _ => by norm_num, fun r hr => absurd hr (by simp)⟩
      · simp only [ht, Bool.false_eq_true, if_false]
        by_cases h8 : (8:ℚ)/10 < simFn (lowerStr t) (lowerStr a.name)
        · simp only [h8, if_true]
          refine ⟨fun hx => absurd hx (by simp), ?_⟩
          intro r hr
          rw [List.mem_singleton] at hr
          subst hr
          exact hasSub_title_reason1 _ _
        · simp only [h8, if_false]
          by_cases h5 : (5:ℚ)/10 < simFn (lowerStr t) (lowerStr a.name)
          · simp only [h5, if_true]
            refine ⟨fun hx => absurd hx (by simp), ?_⟩
            intro r hr
            rw [List.mem_singleton] at hr
            subst hr
            exact hasSub_title_reason2 _ _
          · simp only [h5, if_false]
            refine ⟨fun _ => ?_, fun r hr => absurd hr (by simp)⟩
            push_neg at h5
            nlinarith [h5]

/-- The date reasons are empty only when the date sub-score is 0, and
every date reason mentions "date". -/
theorem datePair_snd (tol : Nat) (parsed : ParsedDoc) (a : Assignment) :
    ((datePair tol parsed a).2 = [] → (datePair tol parsed a).1 = 0) ∧
    (∀ r ∈ (datePair tol parsed a).2, hasSub (lowerStr r) "date" = true) := by
  rw [datePair]
  cases hD : parsed.date with
  | none => exact ⟨fun _ => rfl, fun r hr => absurd hr (by simp)⟩
  | some d =>
      cases hDue : a.due_at with
      | none => exact ⟨fun _ => rfl, fun r hr => absurd hr (by simp)⟩
      | some due =>
          dsimp only
          by_cases h0 : (d - due).natAbs = 0
          · simp only [h0, if_true]
            refine ⟨fun hx => absurd hx (by simp), ?_⟩
            intro r hr
            rw [List.mem_singleton] at hr
            subst hr
            exact hasSub_date_reason1
          · simp only [h0, Bool.false_eq_true, if_false]
            by_cases h1 : (d - due).natAbs ≤ tol
            · simp only [h1, if_true]
              refine ⟨fun hx => absurd hx (by simp), ?_⟩
              intro r hr
              rw [List.mem_singleton] at hr
              subst hr
              exact hasSub_date_reason2 _ _
            · simp only [h1, if_false]
              exact ⟨fun _ => by norm_num, fun r hr => absurd hr (by simp)⟩

/-- Reasons of the sub-blocks survive into the reasons of _score_match. -/
theorem scoreMatch_mem_reasons (cfg : MatcherConfig) (simFn : String → String → ℚ)
    (dir : Directory) (parsed : ParsedDoc) (a : Assignment) (r : String)
    (h : r ∈ (titlePair simFn parsed a).2 ∨ r ∈ (datePair cfg.dateToleranceDays parsed a).2) :
    r ∈ (scoreMatch cfg simFn dir parsed a).2 := by
  rw [scoreMatch]
  have hm : r ∈ (titlePair simFn parsed a).2 ++ (datePair cfg.dateToleranceDays parsed a).2 ++
      (coursePair simFn dir parsed a).2 := by
    rcases h with h | h
    · exact List.mem_append_left _ (List.mem_append_left _ h)
    · exact List.mem_append_left _ (List.mem_append_right _ h)
  split_ifs
  · exact List.mem_append_left _ hm
  · exact hm

/-- The score never exceeds the weighted total plus the bonus. -/
theorem scoreMatch_le (cfg : MatcherConfig) (simFn : String → String → ℚ)
    (dir : Directory) (parsed : ParsedDoc) (a : Assignment) :
    (scoreMatch cfg simFn dir parsed a).1 ≤
      (titlePair simFn parsed a).1 * cfg.titleWeight +
      (datePair cfg.dateToleranceDays parsed a).1 * cfg.dateWeight +
      (coursePair simFn dir parsed a).1 * cfg.courseWeight + 10 := by
  rw [scoreMatch_fst]
  dsimp only
  split_ifs
  · exact le_trans (min_le_left _ _) (le_refl _)
  · linarith

/-- A score of at least 90 forces both a title reason and a date reason. -/
theorem scoreMatch_high_reasons (simFn : String → String → ℚ)
    (hsim : ∀ x y, 0 ≤ simFn x y ∧ simFn x y ≤ 1)
    (dir : Directory) (parsed : ParsedDoc) (a : Assignment)
    (h90 : 90 ≤ (scoreMatch defaultMatcherConfig simFn dir parsed a).1) :
    (∃ r ∈ (scoreMatch defaultMatcherConfig simFn dir parsed a).2,
      hasSub (lowerStr r) "title" = true) ∧
    (∃ r ∈ (scoreMatch defaultMatcherConfig simFn dir parsed a).2,
      hasSub (lowerStr r) "date" = true) := by
  have hT := titlePair_bounds simFn hsim parsed a
  have hD := datePair_bounds defaultMatcherConfig.dateToleranceDays parsed a
  have hC := coursePair_bounds simFn hsim dir parsed a
  have hle := scoreMatch_le defaultMatcherConfig simFn dir parsed a
  have hw1 : defaultMatcherConfig.titleWeight = 1/2 := rfl
  have hw2 : defaultMatcherConfig.dateWeight = 3/10 := rfl
  have hw3 : defaultMatcherConfig.courseWeight = 1/5 := rfl
  rw [hw1, hw2, hw3] at hle
  have htr : (titlePair simFn parsed a).2 ≠ [] := by
    intro hx
    have h50 := (titlePair_snd simFn parsed a).1 hx
    nlinarith [hD.2, hC.2]
  have hdr : (datePair defaultMatcherConfig.dateToleranceDays parsed a).2 ≠ [] := by
    intro hx
    have h0 := (datePair_snd defaultMatcherConfig.dateToleranceDays parsed a).1 hx
    nlinarith [hT.2, hC.2]
  obtain ⟨rt, hrt⟩ := List.exists_mem_of_ne_nil _ htr
  obtain ⟨rd, hrd⟩ := List.exists_mem_of_ne_nil _ hdr
  constructor
  · exact ⟨rt, scoreMatch_mem_reasons _ _ _ _ _ _ (Or.inl hrt),
      (titlePair_snd simFn parsed a).2 rt hrt⟩
  · exact ⟨rd, scoreMatch_mem_reasons _ _ _ _ _ _ (Or.inr hrd),
      (datePair_snd _ parsed a).2 rd hrd⟩

theorem determineMethod_title_date (rs : List String)
    (ht : ∃ r ∈ rs, hasSub (lowerStr r) "title" = true)
    (hd : ∃ r ∈ rs, hasSub (lowerStr r) "date" = true) :
    determineMethod rs = "title+date" := by
  rw [determineMethod]
  have h1 : rs.any (fun r => hasSub (lowerStr r) "title") = true := by
    rw [List.any_eq_true]
    obtain ⟨r, hr, hs⟩ := ht
    exact ⟨r, hr, hs⟩
  have h2 : rs.any (fun r => hasSub (lowerStr r) "date") = true := by
    rw [List.any_eq_true]
    obtain ⟨r, hr, hs⟩ := hd
    exact ⟨r, hr, hs⟩
  simp [h1, h2]

/-- The hypothesized assignment is a candidate of _get_candidates. -/
theorem mem_getCandidates_of (dir : Directory) (today : Int) (sid : Nat)
    (d : Int) (A : Assignment) (c : Course)
    (hA : A ∈ dir.assignments) (hc : c ∈ dir.courses)
    (hcid : c.id = A.course_id) (hcs : c.student_id = sid)
    (hdue : A.due_at = some d) :
    A ∈ getCandidates defaultMatcherConfig dir today sid none (some d) := by
  rw [getCandidates]
  rw [List.mem_filter]
  refine ⟨hA, ?_⟩
  rw [Bool.and_eq_true]
  constructor
  · rw [List.any_eq_true]
    exact ⟨c, hc, by simp [hcid, hcs]⟩
  · rw [hdue]
    have h1 : d - 2 * ((defaultMatcherConfig.dateToleranceDays : Int)) ≤ d := by
      have : (defaultMatcherConfig.dateToleranceDays : Int) = 7 := rfl
      rw [this]; omega
    have h2 : d ≤ d + 2 * ((defaultMatcherConfig.dateToleranceDays : Int)) := by
      have : (defaultMatcherConfig.dateToleranceDays : Int) = 7 := rfl
      rw [this]; omega
    simp [h1, h2]

/-- The score of an exactly matching candidate is at least 90. -/
theorem scoreMatch_exact_ge90 (simFn : String → String → ℚ)
    (hsim : ∀ x y, 0 ≤ simFn x y ∧ simFn x y ≤ 1)
    (hrefl : ∀ x, simFn x x = 1)
    (dir : Directory) (parsed : ParsedDoc) (t : String) (d : Int) (A : Assignment)
    (htitle : parsed.title = some t) (htne : t.isEmpty = false)
    (hdate : parsed.date = some d) (hname : lowerStr t = lowerStr A.name)
    (hdue : A.due_at = some d) :
    90 ≤ (scoreMatch defaultMatcherConfig simFn dir parsed A).1 := by
  have hTv : (titlePair simFn parsed A).1 = 100 := by
    rw [titlePair, htitle]
    dsimp only
    rw [htne]
    simp only [Bool.false_eq_true, if_false]
    rw [hname, hrefl (lowerStr A.name)]
    norm_num
  have hDv : (datePair defaultMatcherConfig.dateToleranceDays parsed A).1 = 100 := by
    rw [datePair, hdate, hdue]
    simp
  have hC := coursePair_bounds simFn hsim dir parsed A
  rw [scoreMatch_fst]
  dsimp only
  rw [hTv, hDv]
  have hcnt : 2 ≤ [(100:ℚ), 100, (coursePair simFn dir parsed A).1].countP (fun s => 70 < s) := by
    by_cases h70 : (70:ℚ) < (coursePair simFn dir parsed A).1 <;>
      simp [List.countP, List.countP.go, h70] <;> norm_num
  rw [if_pos hcnt]
  have hw1 : defaultMatcherConfig.titleWeight = 1/2 := rfl
  have hw2 : defaultMatcherConfig.dateWeight = 3/10 := rfl
  have hw3 : defaultMatcherConfig.courseWeight = 1/5 := rfl
  rw [hw1, hw2, hw3]
  refine le_min (by nlinarith [hC.1]) (by norm_num)

/-- C5: a parsed title identical (case-insensitively) to a known
assignment's name together with a parsed date equal to that assignment's
due date yields a find_match result with confidence at least 90 and method
"title+date". -/
theorem C5_exact_title_date_match (simFn : String → String → ℚ)
    (hsim : ∀ x y, 0 ≤ simFn x y ∧ simFn x y ≤ 1)
    (hrefl : ∀ x, simFn x x = 1)
    (dir : Directory) (today : Int) (parsed : ParsedDoc) (sid : Nat)
    (t : String) (d : Int) (A : Assignment) (c : Course)
    (htitle : parsed.title = some t) (htne : t.isEmpty = false)
    (hdate : parsed.date = some d)
    (hA : A ∈ dir.assignments) (hc : c ∈ dir.courses)
    (hcid : c.id = A.course_id) (hcs : c.student_id = sid)
    (hname : lowerStr t = lowerStr A.name)
    (hdue : A.due_at = some d) :
    90 ≤ (findMatch defaultMatcherConfig simFn dir today parsed sid none).confidence ∧
    (findMatch defaultMatcherConfig simFn dir today parsed sid none).method = "title+date" := by
  have hmem : A ∈ getCandidates defaultMatcherConfig dir today sid none parsed.date := by
    rw [hdate]
    exact mem_getCandidates_of dir today sid d A c hA hc hcid hcs hdue
  have hcne : getCandidates defaultMatcherConfig dir today sid none parsed.date ≠ [] :=
    List.ne_nil_of_mem hmem
  rw [findMatch]
  rw [if_neg (by simpa using hcne)]
  set cands := getCandidates defaultMatcherConfig dir today sid none parsed.date with hcands
  set scored := cands.map (fun a => (a, scoreMatch defaultMatcherConfig simFn dir parsed a))
    with hscored
  have hsne : sortDescBy (fun x : Assignment × ℚ × List String => x.2.1) scored ≠ [] := by
    intro hx
    have h1 := (sortDescBy_eq_nil _ _).mp hx
    rw [hscored, List.map_eq_nil_iff] at h1
    exact hcne h1
  rcases hhd : (sortDescBy (fun x : Assignment × ℚ × List String => x.2.1) scored).head?
    with _ | b
  · exact absurd (List.head?_eq_none_iff.mp hhd) hsne
  · have hmax := sortDescBy_head_max (fun x : Assignment × ℚ × List String => x.2.1)
      scored b hhd
    have hAscored : (A, scoreMatch defaultMatcherConfig simFn dir parsed A) ∈ scored := by
      rw [hscored]
      exact List.mem_map_of_mem _ hmem
    have hA90 := scoreMatch_exact_ge90 simFn hsim hrefl dir parsed t d A
      htitle htne hdate hname hdue
    have hb90 : 90 ≤ b.2.1 := le_trans hA90 (hmax.2 _ hAscored)
    obtain ⟨a', _, hba⟩ := List.mem_map.mp (by rw [hscored] at hmax; exact hmax.1)
    simp only [hhd]
    constructor
    · exact hb90
    · have hbr : b.2.1 = (scoreMatch defaultMatcherConfig simFn dir parsed a').1 ∧
          b.2.2 = (scoreMatch defaultMatcherConfig simFn dir parsed a').2 := by
        rw [← hba]
        exact ⟨rfl, rfl⟩
      have h90' : 90 ≤ (scoreMatch defaultMatcherConfig simFn dir parsed a').1 := by
        rw [← hbr.1]; exact hb90
      have hreasons := scoreMatch_high_reasons simFn hsim dir parsed a' h90'
      rw [hbr.2]
      exact determineMethod_title_date _ hreasons.1 hreasons.2

/-- Kronecker-delta stand-in for SequenceMatcher.ratio: 1 on equal
strings, 0 otherwise (satisfies both range and reflexivity). -/
def simDelta : String → String → ℚ := fun a b => if a = b then 1 else 0

theorem simDelta_range : ∀ x y, 0 ≤ simDelta x y ∧ simDelta x y ≤ 1 := by
  intro x y
  rw [simDelta]
  split_ifs <;> norm_num

theorem simDelta_refl : ∀ x, simDelta x x = 1 := by
  intro x
  simp [simDelta]

/-- Witness for C5 at a concrete one-assignment directory. -/
theorem C5_exact_title_date_match_witness :
    (∀ x, simDelta x x = 1) ∧
    90 ≤ (findMatch defaultMatcherConfig simDelta
        ⟨[⟨1, "Ann Lee"⟩], [⟨4, 1, "Math", true⟩], [⟨9, 4, "Quiz 1", some 3, none⟩]⟩
        0 { title := some "Quiz 1", date := some 3 } 1 none).confidence ∧
    (findMatch defaultMatcherConfig simDelta
        ⟨[⟨1, "Ann Lee"⟩], [⟨4, 1, "Math", true⟩], [⟨9, 4, "Quiz 1", some 3, none⟩]⟩
        0 { title := some "Quiz 1", date := some 3 } 1 none).method = "title+date" :=
  ⟨simDelta_refl,
    (C5_exact_title_date_match simDelta simDelta_range simDelta_refl
      ⟨[⟨1, "Ann Lee"⟩], [⟨4, 1, "Math", true⟩], [⟨9, 4, "Quiz 1", some 3, none⟩]⟩
      0 { title := some "Quiz 1", date := some 3 } 1 "Quiz 1" 3
      ⟨9, 4, "Quiz 1", some 3, none⟩ ⟨4, 1, "Math", true⟩
      rfl (by decide) rfl (by decide) (by decide) rfl rfl rfl rfl).1,
    (C5_exact_title_date_match simDelta simDelta_range simDelta_refl
      ⟨[⟨1, "Ann Lee"⟩], [⟨4, 1, "Math", true⟩], [⟨9, 4, "Quiz 1", some 3, none⟩]⟩
      0 { title := some "Quiz 1", date := some 3 } 1 "Quiz 1" 3
      ⟨9, 4, "Quiz 1", some 3, none⟩ ⟨4, 1, "Math", true⟩
      rfl (by decide) rfl (by decide) (by decide) rfl rfl rfl rfl).2⟩

/-! ## Claim C6: cover-sheet detection -/

/-- Invariant: the best cover-sheet position is set and below 200. -/
def coverQ (st : CoverState) : Prop := ∃ p, st.bestPos = some p ∧ p < 200

/-- Invariant: best position and best match are set together. -/
def coverW (st : CoverState) : Prop := st.bestPos.isSome = st.bestMatch.isSome

/-- Invariant: a best position of exactly 200 carries found_at_end. -/
def coverS (st : CoverState) : Prop := st.bestPos = some 200 → st.foundAtEnd = true

/-- Invariant: every stored best position is at least 200. -/
def coverT (st : CoverState) : Prop := ∀ p, st.bestPos = some p → 200 ≤ p

/-- Invariant: a best match is set. -/
def coverN (st : CoverState) : Prop := st.bestMatch.isSome = true

/-- A predicate preserved by every step of a fold holds at the result. -/
theorem foldl_preserve {α β : Type} (P : α → Prop) (f : α → β → α) :
    ∀ (l : List β) (st : α), P st →
      (∀ (st2 : α) (b : β), b ∈ l → P st2 → P (f st2 b)) → P (l.foldl f st) := by
  intro l
  induction l with
  | nil => intro st h _; exact h
  | cons x xs ih =>
      intro st h hstep
      rw [List.foldl_cons]
      exact ih _ (hstep st x (List.mem_cons_self x xs) h)
        (fun st2 y hy => hstep st2 y (List.mem_cons_of_mem x hy))

/-- A predicate established at one element of a fold, from a precondition
carried up to that element and preserved afterwards, holds at the result. -/
theorem foldl_establish {α β : Type} (Pre P : α → Prop) (f : α → β → α)
    (l : List β) (b : β) (hb : b ∈ l) (st : α) (hpre : Pre st)
    (hPrePres : ∀ (st2 : α) (x : β), x ∈ l → Pre st2 → Pre (f st2 x))
    (hEst : ∀ (st2 : α), Pre st2 → P (f st2 b))
    (hPPres : ∀ (st2 : α) (x : β), x ∈ l → P st2 → P (f st2 x)) :
    P (l.foldl f st) := by
  obtain ⟨l1, l2, rfl⟩ := List.append_of_mem hb
  rw [List.foldl_append, List.foldl_cons]
  have h1 : Pre (l1.foldl f st) :=
    foldl_preserve Pre f l1 st hpre
      (fun st2 x hx => hPrePres st2 x (List.mem_append_left _ hx))
  exact foldl_preserve P f l2 (f (l1.foldl f st) b) (hEst _ h1)
    (fun st2 x hx =>
      hPPres st2 x (List.mem_append_right _ (List.mem_cons_of_mem _ hx)))

/-- The head-window step preserves a below-200 best position. -/
theorem coverHeadVar_Q (fc : List Char) (s : Student) (st : CoverState)
    (v : List Char) (h : coverQ st) : coverQ (coverHeadVar fc s st v) := by
  cases hf : findSub v fc with
  | none => simpa only [coverHeadVar, hf] using h
  | some p =>
      simp only [coverHeadVar, hf]
      by_cases hl : posLtBest p st = true
      · rw [if_pos hl]
        obtain ⟨q, hq, hq2⟩ := h
        simp only [posLtBest, hq, decide_eq_true_eq] at hl
        exact ⟨p, rfl, by omega⟩
      · rw [if_neg hl]; exact h

/-- The head-window step preserves match/position being set together. -/
theorem coverHeadVar_W (fc : List Char) (s : Student) (st : CoverState)
    (v : List Char) (h : coverW st) : coverW (coverHeadVar fc s st v) := by
  cases hf : findSub v fc with
  | none => simpa only [coverHeadVar, hf] using h
  | some p =>
      simp only [coverHeadVar, hf]
      by_cases hl : posLtBest p st = true
      · rw [if_pos hl]; rfl
      · rw [if_neg hl]; exact h

/-- If this variant is not found at exactly 200 in the head window, the
head-window step preserves the exactly-200 invariant. -/
theorem coverHeadVar_S (fc : List Char) (s : Student) (st : CoverState)
    (v : List Char) (hno : ∀ q, findSub v fc = some q → q ≠ 200)
    (h : coverS st) : coverS (coverHeadVar fc s st v) := by
  cases hf : findSub v fc with
  | none => simpa only [coverHeadVar, hf] using h
  | some p =>
      simp only [coverHeadVar, hf]
      by_cases hl : posLtBest p st = true
      · rw [if_pos hl]
        intro hp
        have hp2 : (some p : Option Nat) = some 200 := hp
        exact absurd (Option.some.inj hp2) (hno p hf)
      · rw [if_neg hl]; exact h

/-- If this variant is only found at positions at least 200 in the head
window, the head-window step preserves the at-least-200 invariant. -/
theorem coverHeadVar_T (fc : List Char) (s : Student) (st : CoverState)
    (v : List Char) (hge : ∀ q, findSub v fc = some q → 200 ≤ q)
    (h : coverT st) : coverT (coverHeadVar fc s st v) := by
  cases hf : findSub v fc with
  | none => simpa only [coverHeadVar, hf] using h
  | some p =>
      simp only [coverHeadVar, hf]
      by_cases hl : posLtBest p st = true
      · rw [if_pos hl]
        intro q hq
        have hq2 : (some p : Option Nat) = some q := hq
        exact Option.some.inj hq2 ▸ hge p hf
      · rw [if_neg hl]; exact h

/-- The head-window step preserves the match being set. -/
theorem coverHeadVar_N (fc : List Char) (s : Student) (st : CoverState)
    (v : List Char) (h : coverN st) : coverN (coverHeadVar fc s st v) := by
  cases hf : findSub v fc with
  | none => simpa only [coverHeadVar, hf] using h
  | some p =>
      simp only [coverHeadVar, hf]
      by_cases hl : posLtBest p st = true
      · rw [if_pos hl]; rfl
      · rw [if_neg hl]; exact h

/-- A head-window occurrence below 200 establishes a below-200 best. -/
theorem coverHeadVar_estQ (fc : List Char) (s : Student) (st : CoverState)
    (v : List Char) (p : Nat) (hp : findSub v fc = some p) (h200 : p < 200) :
    coverQ (coverHeadVar fc s st v) := by
  simp only [coverHeadVar, hp]
  by_cases hl : posLtBest p st = true
  · rw [if_pos hl]; exact ⟨p, rfl, h200⟩
  · rw [if_neg hl]
    cases hq : st.bestPos with
    | none =>
        simp only [posLtBest, hq] at hl
        exact absurd trivial hl
    | some q =>
        simp only [posLtBest, hq, decide_eq_true_eq] at hl
        exact ⟨q, hq, by omega⟩

/-- Any head-window occurrence establishes that a match is set. -/
theorem coverHeadVar_estN (fc : List Char) (s : Student) (st : CoverState)
    (v : List Char) (p : Nat) (hp : findSub v fc = some p) (hw : coverW st) :
    coverN (coverHeadVar fc s st v) := by
  simp only [coverHeadVar, hp]
  by_cases hl : posLtBest p st = true
  · rw [if_pos hl]; rfl
  · rw [if_neg hl]
    cases hq : st.bestPos with
    | none =>
        simp only [posLtBest, hq] at hl
        exact absurd trivial hl
    | some q =>
        unfold coverN
        rw [coverW] at hw
        rw [← hw, hq]
        rfl

/-- The tail-window step preserves a below-200 best position. -/
theorem coverTailVar_Q (lc : List Char) (s : Student) (st : CoverState)
    (v : List Char) (h : coverQ st) : coverQ (coverTailVar lc s st v) := by
  rw [coverTailVar]
  by_cases he : lc.isEmpty = true
  · rw [if_pos he]; exact h
  · rw [if_neg he]
    cases hf : findSub v lc with
    | none => exact h
    | some p =>
        dsimp only
        by_cases h1 : (decide (p < 200) && (bestGt200 st || st.foundAtEnd)) = true
        · rw [if_pos h1]
          have hp : p < 200 := by
            have h2 := (Bool.and_eq_true _ _).mp h1
            simpa using h2.1
          exact ⟨p, rfl, hp⟩
        · rw [if_neg h1]
          obtain ⟨q, hq, hq2⟩ := h
          have hg : bestGt200 st = false := by
            cases hb : bestGt200 st with
            | false => rfl
            | true =>
                simp only [bestGt200, hq, decide_eq_true_eq] at hb
                omega
          rw [if_neg (by simp [hg])]
          exact ⟨q, hq, hq2⟩

/-- The tail-window step preserves match/position being set together. -/
theorem coverTailVar_W (lc : List Char) (s : Student) (st : CoverState)
    (v : List Char) (h : coverW st) : coverW (coverTailVar lc s st v) := by
  rw [coverTailVar]
  by_cases he : lc.isEmpty = true
  · rw [if_pos he]; exact h
  · rw [if_neg he]
    cases hf : findSub v lc with
    | none => exact h
    | some p =>
        dsimp only
        by_cases h1 : (decide (p < 200) && (bestGt200 st || st.foundAtEnd)) = true
        · rw [if_pos h1]; rfl
        · rw [if_neg h1]
          by_cases h2 : (posLtBest p st && bestGt200 st) = true
          · rw [if_pos h2]; rfl
          · rw [if_neg h2]; exact h

/-- The tail-window step preserves the exactly-200 invariant. -/
theorem coverTailVar_S (lc : List Char) (s : Student) (st : CoverState)
    (v : List Char) (h : coverS st) : coverS (coverTailVar lc s st v) := by
  rw [coverTailVar]
  by_cases he : lc.isEmpty = true
  · rw [if_pos he]; exact h
  · rw [if_neg he]
    cases hf : findSub v lc with
    | none => exact h
    | some p =>
        dsimp only
        by_cases h1 : (decide (p < 200) && (bestGt200 st || st.foundAtEnd)) = true
        · rw [if_pos h1]; intro _; rfl
        · rw [if_neg h1]
          by_cases h2 : (posLtBest p st && bestGt200 st) = true
          · rw [if_pos h2]; intro _; rfl
          · rw [if_neg h2]; exact h

/-- If this variant is only found at positions at least 200 in the tail
window, the tail-window step preserves the at-least-200 invariant. -/
theorem coverTailVar_T (lc : List Char) (s : Student) (st : CoverState)
    (v : List Char) (hge : ∀ q, findSub v lc = some q → 200 ≤ q)
    (h : coverT st) : coverT (coverTailVar lc s st v) := by
  rw [coverTailVar]
  by_cases he : lc.isEmpty = true
  · rw [if_pos he]; exact h
  · rw [if_neg he]
    cases hf : findSub v lc with
    | none => exact h
    | some p =>
        dsimp only
        by_cases h1 : (decide (p < 200) && (bestGt200 st || st.foundAtEnd)) = true
        · rw [if_pos h1]
          intro q hq
          have hq2 : (some p : Option Nat) = some q := hq
          exact Option.some.inj hq2 ▸ hge p hf
        · rw [if_neg h1]
          by_cases h2 : (posLtBest p st && bestGt200 st) = true
          · rw [if_pos h2]
            intro q hq
            have hq2 : (some p : Option Nat) = some q := hq
            exact Option.some.inj hq2 ▸ hge p hf
          · rw [if_neg h2]; exact h

/-- The tail-window step preserves the match being set. -/
theorem coverTailVar_N (lc : List Char) (s : Student) (st : CoverState)
    (v : List Char) (h : coverN st) : coverN (coverTailVar lc s st v) := by
  rw [coverTailVar]
  by_cases he : lc.isEmpty = true
  · rw [if_pos he]; exact h
  · rw [if_neg he]
    cases hf : findSub v lc with
    | none => exact h
    | some p =>
        dsimp only
        by_cases h1 : (decide (p < 200) && (bestGt200 st || st.foundAtEnd)) = true
        · rw [if_pos h1]; rfl
        · rw [if_neg h1]
          by_cases h2 : (posLtBest p st && bestGt200 st) = true
          · rw [if_pos h2]; rfl
          · rw [if_neg h2]; exact h

/-- A tail-window occurrence below 200 establishes a below-200 best,
provided no best position of exactly 200 lacks found_at_end. -/
theorem coverTailVar_estQ (lc : List Char) (s : Student) (st : CoverState)
    (v : List Char) (p : Nat) (hp : findSub v lc = some p)
    (hne : lc.isEmpty = false) (h200 : p < 200) (hS : coverS st) :
    coverQ (coverTailVar lc s st v) := by
  rw [coverTailVar]
  rw [if_neg (by simp [hne])]
  simp only [hp]
  by_cases h1 : (decide (p < 200) && (bestGt200 st || st.foundAtEnd)) = true
  · rw [if_pos h1]; exact ⟨p, rfl, h200⟩
  · rw [if_neg h1]
    have hg : bestGt200 st = false := by
      cases hb : bestGt200 st with
      | false => rfl
      | true => exact absurd (by simp [hb, h200]) h1
    have hfe : st.foundAtEnd = false := by
      cases hb : st.foundAtEnd with
      | false => rfl
      | true => exact absurd (by simp [hb, h200]) h1
    cases hq : st.bestPos with
    | none =>
        simp only [bestGt200, hq] at hg
        exact absurd hg (by simp)
    | some q =>
        have hq200 : ¬ 200 < q := by
          simp only [bestGt200, hq] at hg
          simpa using hg
        rcases Nat.lt_or_ge q 200 with hlt | hge2
        · rw [if_neg (by simp [hg])]
          exact ⟨q, hq, hlt⟩
        · have hq2 : q = 200 := by omega
          have hF : st.foundAtEnd = true := hS (by rw [hq, hq2])
          rw [hF] at hfe
          exact absurd hfe (by simp)

/-- Any tail-window occurrence establishes that a match is set. -/
theorem coverTailVar_estN (lc : List Char) (s : Student) (st : CoverState)
    (v : List Char) (p : Nat) (hp : findSub v lc = some p)
    (hne : lc.isEmpty = false) (hw : coverW st) :
    coverN (coverTailVar lc s st v) := by
  rw [coverTailVar]
  rw [if_neg (by simp [hne])]
  simp only [hp]
  by_cases h1 : (decide (p < 200) && (bestGt200 st || st.foundAtEnd)) = true
  · rw [if_pos h1]; rfl
  · rw [if_neg h1]
    by_cases h2 : (posLtBest p st && bestGt200 st) = true
    · rw [if_pos h2]; rfl
    · rw [if_neg h2]
      cases hq : st.bestPos with
      | none => exact absurd (by simp [posLtBest, bestGt200, hq]) h2
      | some q =>
          unfold coverN
          rw [coverW] at hw
          rw [← hw, hq]
          rfl

/-- A predicate preserved by both window steps for a student is preserved
by the student's whole cover-sheet loop body. -/
theorem coverStudentStep_pres (fc lc : List Char) (P : CoverState → Prop)
    {s : Student}
    (hH : ∀ (st : CoverState), ∀ w ∈ nameVariants s, P st → P (coverHeadVar fc s st w))
    (hT2 : ∀ (st : CoverState), ∀ w ∈ nameVariants s, P st → P (coverTailVar lc s st w))
    (st : CoverState) (h : P st) : P (coverStudentStep fc lc st s) :=
  foldl_preserve P (coverTailVar lc s) (nameVariants s)
    ((nameVariants s).foldl (coverHeadVar fc s) st)
    (foldl_preserve P (coverHeadVar fc s) (nameVariants s) st h
      (fun st2 w hw hP => hH st2 w hw hP))
    (fun st2 w hw hP => hT2 st2 w hw hP)

/-- A predicate established by the head-window step at one variant holds
after the student's whole cover-sheet loop body. -/
theorem coverStudentStep_est_head (fc lc : List Char) (Pre P : CoverState → Prop)
    {s : Student} {v : List Char} (hv : v ∈ nameVariants s)
    (hPreH : ∀ (st : CoverState), ∀ w ∈ nameVariants s, Pre st → Pre (coverHeadVar fc s st w))
    (hPH : ∀ (st : CoverState), ∀ w ∈ nameVariants s, P st → P (coverHeadVar fc s st w))
    (hPT : ∀ (st : CoverState), ∀ w ∈ nameVariants s, P st → P (coverTailVar lc s st w))
    (hEst : ∀ (st : CoverState), Pre st → P (coverHeadVar fc s st v))
    (st : CoverState) (h0 : Pre st) : P (coverStudentStep fc lc st s) :=
  foldl_preserve P (coverTailVar lc s) (nameVariants s)
    ((nameVariants s).foldl (coverHeadVar fc s) st)
    (foldl_establish Pre P (coverHeadVar fc s) (nameVariants s) v hv st h0
      (fun st2 w hw hPre => hPreH st2 w hw hPre) hEst
      (fun st2 w hw hP => hPH st2 w hw hP))
    (fun st2 w hw hP => hPT st2 w hw hP)

/-- A predicate established by the tail-window step at one variant holds
after the student's whole cover-sheet loop body. -/
theorem coverStudentStep_est_tail (fc lc : List Char) (Pre P : CoverState → Prop)
    {s : Student} {v : List Char} (hv : v ∈ nameVariants s)
    (hPreH : ∀ (st : CoverState), ∀ w ∈ nameVariants s, Pre st → Pre (coverHeadVar fc s st w))
    (hPreT : ∀ (st : CoverState), ∀ w ∈ nameVariants s, Pre st → Pre (coverTailVar lc s st w))
    (hPT : ∀ (st : CoverState), ∀ w ∈ nameVariants s, P st → P (coverTailVar lc s st w))
    (hEst : ∀ (st : CoverState), Pre st → P (coverTailVar lc s st v))
    (st : CoverState) (h0 : Pre st) : P (coverStudentStep fc lc st s) :=
  foldl_establish Pre P (coverTailVar lc s) (nameVariants s) v hv
    ((nameVariants s).foldl (coverHeadVar fc s) st)
    (foldl_preserve Pre (coverHeadVar fc s) (nameVariants s) st h0
      (fun st2 w hw hPre => hPreH st2 w hw hPre))
    (fun st2 w hw hPre => hPreT st2 w hw hPre) hEst
    (fun st2 w hw hP => hPT st2 w hw hP)

/-- A predicate established for one student of the cover-sheet loop, from
a precondition preserved by every step, holds at the loop's result. -/
theorem coverFold_est (fc lc : List Char) (Pre P : CoverState → Prop)
    (students : List Student) (s : Student) (hs : s ∈ students)
    (hPreH : ∀ s2 ∈ students, ∀ (st : CoverState), ∀ w ∈ nameVariants s2,
      Pre st → Pre (coverHeadVar fc s2 st w))
    (hPreT : ∀ s2 ∈ students, ∀ (st : CoverState), ∀ w ∈ nameVariants s2,
      Pre st → Pre (coverTailVar lc s2 st w))
    (hPH : ∀ s2 ∈ students, ∀ (st : CoverState), ∀ w ∈ nameVariants s2,
      P st → P (coverHeadVar fc s2 st w))
    (hPT : ∀ s2 ∈ students, ∀ (st : CoverState), ∀ w ∈ nameVariants s2,
      P st → P (coverTailVar lc s2 st w))
    (hEstStep : ∀ (st : CoverState), Pre st → P (coverStudentStep fc lc st s))
    (st0 : CoverState) (h0 : Pre st0) :
    P (students.foldl (coverStudentStep fc lc) st0) :=
  foldl_establish Pre P (coverStudentStep fc lc) students s hs st0 h0
    (fun st2 s2 hs2 hPre =>
      coverStudentStep_pres fc lc Pre (hPreH s2 hs2) (hPreT s2 hs2) st2 hPre)
    hEstStep
    (fun st2 s2 hs2 hP =>
      coverStudentStep_pres fc lc P (hPH s2 hs2) (hPT s2 hs2) st2 hP)

/-- _detect_from_cover_sheet, with its two cleaned windows abstracted and
its loop exposed as a fold. -/
theorem detectFromCoverSheet_eval (students : List Student) (text : String)
    (fc lc : List Char)
    (hfc : fc = cleanText (upperL (text.toList.take 500)))
    (hlc : lc = if 500 < text.toList.length then
      cleanText (upperL (text.toList.drop (text.toList.length - 500))) else []) :
    detectFromCoverSheet students text =
      (fun final : CoverState =>
        match final.bestMatch with
        | some s =>
            if (match final.bestPos with
                | some p => decide (p < 200)
                | none => false) = true then
              { student := some s, confidence := 98, method := "cover_sheet",
                reasons := ["Cover sheet detected at " ++
                  (if final.foundAtEnd then "end" else "beginning") ++ ": " ++ s.name] }
            else
              { student := some s, confidence := 70, method := "cover_sheet",
                reasons := ["Name " ++ s.name ++ " found at " ++
                  (if final.foundAtEnd then "end" else "beginning") ++ " of document"] }
        | none =>
            { student := none, confidence := 0, method := "cover_sheet",
              reasons := ["No student name found in first or last portion of document"] })
      (students.foldl (coverStudentStep fc lc)
        { bestMatch := none, bestPos := none, foundAtEnd := false }) := by
  subst hfc hlc
  rfl

/-- When the cover-sheet loop ends with a set best position below 200, the
detector reports confidence 98 with method cover_sheet and a student. -/
theorem coverFinish_high (students : List Student) (text : String) (fc lc : List Char)
    (hfc : fc = cleanText (upperL (text.toList.take 500)))
    (hlc : lc = if 500 < text.toList.length then
      cleanText (upperL (text.toList.drop (text.toList.length - 500))) else [])
    (hQ : coverQ (students.foldl (coverStudentStep fc lc)
      { bestMatch := none, bestPos := none, foundAtEnd := false }))
    (hW : coverW (students.foldl (coverStudentStep fc lc)
      { bestMatch := none, bestPos := none, foundAtEnd := false })) :
    (detectFromCoverSheet students text).confidence = 98 ∧
    (detectFromCoverSheet students text).method = "cover_sheet" ∧
    (detectFromCoverSheet students text).student.isSome = true := by
  rw [detectFromCoverSheet_eval students text fc lc hfc hlc]
  set F := students.foldl (coverStudentStep fc lc)
    { bestMatch := none, bestPos := none, foundAtEnd := false } with hF
  obtain ⟨p, hp, h200⟩ := hQ
  cases hbm : F.bestMatch with
  | none =>
      rw [coverW, hp, hbm] at hW
      simp at hW
  | some s0 =>
      simp only [hbm, hp]
      rw [if_pos (by simpa using h200)]
      exact ⟨rfl, rfl, rfl⟩

/-- When the cover-sheet loop ends with a match whose best position is at
least 200, the detector reports confidence 70 with method cover_sheet. -/
theorem coverFinish_low (students : List Student) (text : String) (fc lc : List Char)
    (hfc : fc = cleanText (upperL (text.toList.take 500)))
    (hlc : lc = if 500 < text.toList.length then
      cleanText (upperL (text.toList.drop (text.toList.length - 500))) else [])
    (hN : coverN (students.foldl (coverStudentStep fc lc)
      { bestMatch := none, bestPos := none, foundAtEnd := false }))
    (hW : coverW (students.foldl (coverStudentStep fc lc)
      { bestMatch := none, bestPos := none, foundAtEnd := false }))
    (hT : coverT (students.foldl (coverStudentStep fc lc)
      { bestMatch := none, bestPos := none, foundAtEnd := false })) :
    (detectFromCoverSheet students text).confidence = 70 ∧
    (detectFromCoverSheet students text).method = "cover_sheet" ∧
    (detectFromCoverSheet students text).student.isSome = true := by
  rw [detectFromCoverSheet_eval students text fc lc hfc hlc]
  set F := students.foldl (coverStudentStep fc lc)
    { bestMatch := none, bestPos := none, foundAtEnd := false } with hF
  cases hbm : F.bestMatch with
  | none =>
      rw [coverN, hbm] at hN
      simp at hN
  | some s0 =>
      cases hpos : F.bestPos with
      | none =>
          rw [coverW, hpos, hbm] at hW
          simp at hW
      | some p =>
          have h200 := hT p hpos
          simp only [hbm, hpos]
          rw [if_neg (by simp only [decide_eq_true_eq]; omega)]
          exact ⟨rfl, rfl, rfl⟩

set_option maxRecDepth 40000 in
/-- C6 counterexample: the student's name BOB occurs at cleaned position
100 (within the first 200 characters) of the tail window, yet the
detection confidence is 70, not at least 98: a head-window occurrence at
exactly position 200 blocks the tail upgrade (student_detector.py line
218 requires best_position > 200, which fails at exactly 200). -/
theorem C6_counterexample :
    (500 < (String.mk (List.replicate 200 'X' ++ "BOB".toList ++
      List.replicate 397 'Y')).toList.length) ∧
    findSub "BOB".toList (cleanText (upperL
      ((String.mk (List.replicate 200 'X' ++ "BOB".toList ++ List.replicate 397 'Y')).toList.drop
        ((String.mk (List.replicate 200 'X' ++ "BOB".toList ++
          List.replicate 397 'Y')).toList.length - 500)))) = some 100 ∧
    "BOB".toList ∈ nameVariants ⟨1, "Bob"⟩ ∧
    (detectFromCoverSheet [⟨1, "Bob"⟩]
      (String.mk (List.replicate 200 'X' ++ "BOB".toList ++
        List.replicate 397 'Y'))).confidence = 70 := by
  refine ⟨by decide, by decide, by decide, by decide⟩

/-- C6 (amended): over the cleaned head window fc and cleaned tail window
lc of _detect_from_cover_sheet: (1) a name variant occurring below cleaned
position 200 of the head window yields confidence 98, method cover_sheet
and a resolved student; (2) a name variant occurring below cleaned
position 200 of the tail window yields the same, provided no variant of
any student occurs at exactly cleaned position 200 of the head window (at
exactly 200 the code's best_position > 200 test blocks the tail upgrade,
as C6_counterexample shows); (3) if some variant occurs in a window but
every occurrence in both windows is at cleaned position at least 200, the
detector returns confidence 70 with method cover_sheet and a resolved
student. -/
theorem C6_cover_sheet_detection (students : List Student) (text : String)
    (fc lc : List Char)
    (hfc : fc = cleanText (upperL (text.toList.take 500)))
    (hlc : lc = if 500 < text.toList.length then
      cleanText (upperL (text.toList.drop (text.toList.length - 500))) else []) :
    ((∃ s ∈ students, ∃ v ∈ nameVariants s, ∃ p, findSub v fc = some p ∧ p < 200) →
      (detectFromCoverSheet students text).confidence = 98 ∧
      (detectFromCoverSheet students text).method = "cover_sheet" ∧
      (detectFromCoverSheet students text).student.isSome = true) ∧
    ((∀ s ∈ students, ∀ v ∈ nameVariants s, ∀ q, findSub v fc = some q → q ≠ 200) →
      lc.isEmpty = false →
      (∃ s ∈ students, ∃ v ∈ nameVariants s, ∃ p, findSub v lc = some p ∧ p < 200) →
      (detectFromCoverSheet students text).confidence = 98 ∧
      (detectFromCoverSheet students text).method = "cover_sheet" ∧
      (detectFromCoverSheet students text).student.isSome = true) ∧
    ((∀ s ∈ students, ∀ v ∈ nameVariants s,
        (∀ q, findSub v fc = some q → 200 ≤ q) ∧ (∀ q, findSub v lc = some q → 200 ≤ q)) →
      (∃ s ∈ students, ∃ v ∈ nameVariants s,
        (findSub v fc).isSome = true ∨ (lc.isEmpty = false ∧ (findSub v lc).isSome = true)) →
      (detectFromCoverSheet students text).confidence = 70 ∧
      (detectFromCoverSheet students text).method = "cover_sheet" ∧
      (detectFromCoverSheet students text).student.isSome = true) := by
  refine ⟨?_, ?_, ?_⟩
  · rintro ⟨s, hs, v, hv, p, hp, h200⟩
    have hF := coverFold_est fc lc coverW (fun st => coverQ st ∧ coverW st) students s hs
      (fun s2 _ st w _ hw => coverHeadVar_W fc s2 st w hw)
      (fun s2 _ st w _ hw => coverTailVar_W lc s2 st w hw)
      (fun s2 _ st w _ h => ⟨coverHeadVar_Q fc s2 st w h.1, coverHeadVar_W fc s2 st w h.2⟩)
      (fun s2 _ st w _ h => ⟨coverTailVar_Q lc s2 st w h.1, coverTailVar_W lc s2 st w h.2⟩)
      (fun st h0 => coverStudentStep_est_head fc lc coverW
        (fun st2 => coverQ st2 ∧ coverW st2) hv
        (fun st2 w _ hw => coverHeadVar_W fc s st2 w hw)
        (fun st2 w _ h => ⟨coverHeadVar_Q fc s st2 w h.1, coverHeadVar_W fc s st2 w h.2⟩)
        (fun st2 w _ h => ⟨coverTailVar_Q lc s st2 w h.1, coverTailVar_W lc s st2 w h.2⟩)
        (fun st2 hw => ⟨coverHeadVar_estQ fc s st2 v p hp h200, coverHeadVar_W fc s st2 v hw⟩)
        st h0)
      { bestMatch := none, bestPos := none, foundAtEnd := false } rfl
    exact coverFinish_high students text fc lc hfc hlc hF.1 hF.2
  · rintro hno hne ⟨s, hs, v, hv, p, hp, h200⟩
    have hF := coverFold_est fc lc (fun st => coverW st ∧ coverS st)
      (fun st => coverQ st ∧ coverW st) students s hs
      (fun s2 hs2 st w hw h => ⟨coverHeadVar_W fc s2 st w h.1,
        coverHeadVar_S fc s2 st w (hno s2 hs2 w hw) h.2⟩)
      (fun s2 _ st w _ h => ⟨coverTailVar_W lc s2 st w h.1, coverTailVar_S lc s2 st w h.2⟩)
      (fun s2 _ st w _ h => ⟨coverHeadVar_Q fc s2 st w h.1, coverHeadVar_W fc s2 st w h.2⟩)
      (fun s2 _ st w _ h => ⟨coverTailVar_Q lc s2 st w h.1, coverTailVar_W lc s2 st w h.2⟩)
      (fun st h0 => coverStudentStep_est_tail fc lc
        (fun st2 => coverW st2 ∧ coverS st2)
        (fun st2 => coverQ st2 ∧ coverW st2) hv
        (fun st2 w hw h => ⟨coverHeadVar_W fc s st2 w h.1,
          coverHeadVar_S fc s st2 w (hno s hs w hw) h.2⟩)
        (fun st2 w _ h => ⟨coverTailVar_W lc s st2 w h.1, coverTailVar_S lc s st2 w h.2⟩)
        (fun st2 w _ h => ⟨coverTailVar_Q lc s st2 w h.1, coverTailVar_W lc s st2 w h.2⟩)
        (fun st2 h0' => ⟨coverTailVar_estQ lc s st2 v p hp hne h200 h0'.2,
          coverTailVar_W lc s st2 v h0'.1⟩)
        st h0)
      { bestMatch := none, bestPos := none, foundAtEnd := false }
      ⟨rfl, by intro h; simp at h⟩
    exact coverFinish_high students text fc lc hfc hlc hF.1 hF.2
  · rintro hge ⟨s, hs, v, hv, hocc⟩
    have hPreH3 : ∀ s2 ∈ students, ∀ (st : CoverState), ∀ w ∈ nameVariants s2,
        (coverW st ∧ coverT st) → coverW (coverHeadVar fc s2 st w) ∧
          coverT (coverHeadVar fc s2 st w) :=
      fun s2 hs2 st w hw h => ⟨coverHeadVar_W fc s2 st w h.1,
        coverHeadVar_T fc s2 st w (hge s2 hs2 w hw).1 h.2⟩
    have hPreT3 : ∀ s2 ∈ students, ∀ (st : CoverState), ∀ w ∈ nameVariants s2,
        (coverW st ∧ coverT st) → coverW (coverTailVar lc s2 st w) ∧
          coverT (coverTailVar lc s2 st w) :=
      fun s2 hs2 st w hw h => ⟨coverTailVar_W lc s2 st w h.1,
        coverTailVar_T lc s2 st w (hge s2 hs2 w hw).2 h.2⟩
    have hPH3 : ∀ s2 ∈ students, ∀ (st : CoverState), ∀ w ∈ nameVariants s2,
        (coverN st ∧ coverW st ∧ coverT st) → coverN (coverHeadVar fc s2 st w) ∧
          coverW (coverHeadVar fc s2 st w) ∧ coverT (coverHeadVar fc s2 st w) :=
      fun s2 hs2 st w hw h => ⟨coverHeadVar_N fc s2 st w h.1,
        coverHeadVar_W fc s2 st w h.2.1,
        coverHeadVar_T fc s2 st w (hge s2 hs2 w hw).1 h.2.2⟩
    have hPT3 : ∀ s2 ∈ students, ∀ (st : CoverState), ∀ w ∈ nameVariants s2,
        (coverN st ∧ coverW st ∧ coverT st) → coverN (coverTailVar lc s2 st w) ∧
          coverW (coverTailVar lc s2 st w) ∧ coverT (coverTailVar lc s2 st w) :=
      fun s2 hs2 st w hw h => ⟨coverTailVar_N lc s2 st w h.1,
        coverTailVar_W lc s2 st w h.2.1,
        coverTailVar_T lc s2 st w (hge s2 hs2 w hw).2 h.2.2⟩
    have hEst : ∀ (st : CoverState), (coverW st ∧ coverT st) →
        coverN (coverStudentStep fc lc st s) ∧ coverW (coverStudentStep fc lc st s) ∧
          coverT (coverStudentStep fc lc st s) := by
      rcases hocc with hhead | ⟨hne, htail⟩
      · obtain ⟨p, hp⟩ := Option.isSome_iff_exists.mp hhead
        exact fun st h0 => coverStudentStep_est_head fc lc
          (fun st2 => coverW st2 ∧ coverT st2)
          (fun st2 => coverN st2 ∧ coverW st2 ∧ coverT st2) hv
          (fun st2 w hw h => ⟨coverHeadVar_W fc s st2 w h.1,
            coverHeadVar_T fc s st2 w (hge s hs w hw).1 h.2⟩)
          (fun st2 w hw h => ⟨coverHeadVar_N fc s st2 w h.1,
            coverHeadVar_W fc s st2 w h.2.1,
            coverHeadVar_T fc s st2 w (hge s hs w hw).1 h.2.2⟩)
          (fun st2 w hw h => ⟨coverTailVar_N lc s st2 w h.1,
            coverTailVar_W lc s st2 w h.2.1,
            coverTailVar_T lc s st2 w (hge s hs w hw).2 h.2.2⟩)
          (fun st2 h0' => ⟨coverHeadVar_estN fc s st2 v p hp h0'.1,
            coverHeadVar_W fc s st2 v h0'.1,
            coverHeadVar_T fc s st2 v (hge s hs v hv).1 h0'.2⟩)
          st h0
      · obtain ⟨p, hp⟩ := Option.isSome_iff_exists.mp htail
        exact fun st h0 => coverStudentStep_est_tail fc lc
          (fun st2 => coverW st2 ∧ coverT st2)
          (fun st2 => coverN st2 ∧ coverW st2 ∧ coverT st2) hv
          (fun st2 w hw h => ⟨coverHeadVar_W fc s st2 w h.1,
            coverHeadVar_T fc s st2 w (hge s hs w hw).1 h.2⟩)
          (fun st2 w hw h => ⟨coverTailVar_W lc s st2 w h.1,
            coverTailVar_T lc s st2 w (hge s hs w hw).2 h.2⟩)
          (fun st2 w hw h => ⟨coverTailVar_N lc s st2 w h.1,
            coverTailVar_W lc s st2 w h.2.1,
            coverTailVar_T lc s st2 w (hge s hs w hw).2 h.2.2⟩)
          (fun st2 h0' => ⟨coverTailVar_estN lc s st2 v p hp hne h0'.1,
            coverTailVar_W lc s st2 v h0'.1,
            coverTailVar_T lc s st2 v (hge s hs v hv).2 h0'.2⟩)
          st h0
    have hF := coverFold_est fc lc (fun st => coverW st ∧ coverT st)
      (fun st => coverN st ∧ coverW st ∧ coverT st) students s hs
      hPreH3 hPreT3 hPH3 hPT3 hEst
      { bestMatch := none, bestPos := none, foundAtEnd := false }
      ⟨rfl, by intro q hq; simp at hq⟩
    exact coverFinish_low students text fc lc hfc hlc hF.1 hF.2.1 hF.2.2

/-- Witness for C6_cover_sheet_detection: the student Ann at the very
start of a short document is detected with confidence 98. -/
theorem C6_cover_sheet_detection_witness :
    (detectFromCoverSheet [⟨1, "Ann"⟩] "ANN homework").confidence = 98 ∧
    (detectFromCoverSheet [⟨1, "Ann"⟩] "ANN homework").method = "cover_sheet" ∧
    (detectFromCoverSheet [⟨1, "Ann"⟩] "ANN homework").student.isSome = true :=
  (C6_cover_sheet_detection [⟨1, "Ann"⟩] "ANN homework" _ _ rfl rfl).1
    ⟨⟨1, "Ann"⟩, by decide, "ANN".toList, by decide, 0, by decide, by decide⟩

end Scan
